import Mathlib

/-!
Verification development for the CHORM query-construction and
object-relational-mapping layer (package `chorm`).

The Go sources are shallowly embedded:

* `Query` and its composition methods model the statement builder of
  `query.go` (`Table`, `Select`, `Where…`, `Join…`, `GroupBy`, `Having`,
  `OrderBy…`, `Limit`, `Offset`, `buildSQL`, and the terminal operations
  `Get`, `Count`, `Exists`, `Last`, `Update`).  Positional-argument values
  (Go `interface{}`) are a type parameter `α`.  The external transport
  (`db.QueryRow`) is modelled by an `ExecResult` parameter: the builder's
  state transitions never depend on it, which is exactly how the Go code
  threads the returned `error` through.
* `Aggregate`/`Window` model `aggregate.go`.
* `Mapper`, `ParseStruct`, `getTableName`, `SetFieldValue`,
  `BuildCreateTableSQL` model `mapper.go`; record types are embedded as
  `StructDesc` values carrying the `reflect.StructField` data the code
  reads (field name, `ch`/`ch_type`/`ch_pk`/`ch_auto`/`ch_nullable`/
  `ch_table` tags, Go kind).  Go standard-library collaborators
  (`fmt.Sprintf "%v"`, `strconv.Parse*`, float conversions) are abstracted
  as a `GoStd` bundle of uninterpreted functions; `strconv`-style decimal
  rendering of integers (`%d`) and the fixed six-decimal rendering of
  float levels (`%f`) are implemented concretely (`intStr`, `goFmtF6`).

Go library helpers that the code calls on strings (`strings.Join`,
`strings.Contains`, `strings.Replace(_,_,_,1)`, `strings.ToUpper`) are
implemented character-exactly below (`goJoin`, `goContains`,
`goReplace1`, `goToUpper`; `goToUpper` models the ASCII behaviour, the
only one exercised by the builder's `ASC`/`DESC` direction strings).
-/

/-! ### String helpers (Go `strings` / `strconv` / `fmt` counterparts) -/

/-- Number of `?` placeholder markers in a character list. -/
def countQL (l : List Char) : Nat := l.count '?'

/-- Number of `?` placeholder markers in a string. -/
def countQ (s : String) : Nat := countQL s.data

/-- Go `strings.Join(l, sep)`. -/
def goJoin (sep : String) : List String → String
  | [] => ""
  | [x] => x
  | x :: y :: t => x ++ sep ++ goJoin sep (y :: t)

/-- Prefix test on character lists: `hasPre pre l` holds when `pre` is a
prefix of `l`. -/
def hasPre : List Char → List Char → Bool
  | [], _ => true
  | _ :: _, [] => false
  | a :: as, b :: bs => a == b && hasPre as bs

/-- Occurrence test: `occurs pat l` holds when `pat` occurs as a
contiguous sublist of `l` (Go `strings.Contains l pat`). -/
def occurs (pat : List Char) : List Char → Bool
  | [] => hasPre pat []
  | l@(_ :: t) => hasPre pat l || occurs pat t

/-- Go `strings.Contains(s, sub)`. -/
def goContains (s sub : String) : Bool := occurs sub.data s.data

/-- Replace the first occurrence of `old` in a character list by `new`
(Go `strings.Replace(s, old, new, 1)` on the underlying bytes). -/
def replF (old new : List Char) : List Char → List Char
  | [] => if hasPre old [] then new else []
  | l@(c :: t) => if hasPre old l then new ++ l.drop old.length else c :: replF old new t

/-- Go `strings.Replace(s, old, new, 1)`. -/
def goReplace1 (s old new : String) : String := ⟨replF old.data new.data s.data⟩

/-- Go `strings.ToUpper` (ASCII model). -/
def goToUpper (s : String) : String := ⟨s.data.map Char.toUpper⟩

/-- Go `strings.ToLower` (ASCII model). -/
def goToLower (s : String) : String := ⟨s.data.map Char.toLower⟩

/-- Decimal digit character. -/
def digChar (d : Nat) : Char := Char.ofNat (48 + d)

/-- Decimal digits of `n`, most significant first; `fuel` bounds the
recursion and is always sufficient at `fuel = n + 1`. -/
def natCharsFuel : Nat → Nat → List Char
  | 0, _ => []
  | fuel + 1, n => if n < 10 then [digChar n] else natCharsFuel fuel (n / 10) ++ [digChar (n % 10)]

/-- Decimal rendering of a natural number. -/
def natStr (n : Nat) : String := ⟨natCharsFuel (n + 1) n⟩

/-- Go `fmt.Sprintf("%d", i)` for a (signed) integer. -/
def intStr (i : Int) : String := if i < 0 then "-" ++ natStr (-i).toNat else natStr i.toNat

/-- Left-pad a string with `'0'` to six characters (fractional part of a
`%f` rendering). -/
def pad6 (s : String) : String := ⟨List.replicate (6 - s.length) '0'⟩ ++ s

/-- Fixed-point rendering of the nonnegative rational `num / den` with
exactly six digits after the decimal point, rounding to nearest
(`(num*2000000 + den) / (2*den)` is `⌊num/den * 10^6 + 1/2⌋`).  Ties are
rounded up; a binary `float64` can never produce an exact tie at the
sixth decimal, so this agrees with Go's `fmt.Sprintf("%f", _)` on every
value a `float64` can take. -/
def fmtCore (num den : Nat) : String :=
  let n := (num * 2000000 + den) / (2 * den)
  natStr (n / 1000000) ++ "." ++ pad6 (natStr (n % 1000000))

/-- Go `fmt.Sprintf("%f", x)`: six-decimal fixed-point rendering of a
rational (the exact value of the formatted `float64`). -/
def goFmtF6 (x : ℚ) : String :=
  if x.num < 0 then "-" ++ fmtCore (-x.num).toNat x.den else fmtCore x.num.toNat x.den

/-! ### The statement builder (`Query`, query.go) -/

/-- State of the fluent statement builder, mirroring Go `type Query struct`
field by field (the `db *DB` handle carries no statement state and is
omitted; argument values are the type parameter `α`). -/
structure Query (α : Type) where
  table : String := ""
  selects : List String := ["*"]
  wheres : List String := []
  groupBy : List String := []
  orderBy : List String := []
  limit : Int := 0
  offset : Int := 0
  args : List α := []
  distinct : Bool := false
  having : List String := []
  joins : List String := []
deriving DecidableEq, Repr

/-- Go `db.NewQuery()`: fresh builder with `selects = ["*"]` and empty args. -/
def newQuery {α : Type} : Query α := {}

/-- Go `Query.Table`. -/
def Query.Table {α} (q : Query α) (table : String) : Query α := { q with table := table }

/-- Go `Query.Select`: replaces the projection list when given at least one field. -/
def Query.Select {α} (q : Query α) (fields : List String) : Query α :=
  if fields.length > 0 then { q with selects := fields } else q

/-- Go `Query.Distinct`. -/
def Query.Distinct {α} (q : Query α) : Query α := { q with distinct := true }

/-- Go `Query.Where`: appends the condition and its argument values. -/
def Query.Where {α} (q : Query α) (condition : String) (args : List α) : Query α :=
  { q with wheres := q.wheres ++ [condition], args := q.args ++ args }

/-- Go `Query.WhereIn`: one generated placeholder per value. -/
def Query.WhereIn {α} (q : Query α) (field : String) (values : List α) : Query α :=
  if values.length = 0 then q
  else
    let placeholders := values.map (fun _ => "?")
    let condition := field ++ " IN (" ++ goJoin ", " placeholders ++ ")"
    { q with wheres := q.wheres ++ [condition], args := q.args ++ values }

/-- Go `Query.WhereNotIn`. -/
def Query.WhereNotIn {α} (q : Query α) (field : String) (values : List α) : Query α :=
  if values.length = 0 then q
  else
    let placeholders := values.map (fun _ => "?")
    let condition := field ++ " NOT IN (" ++ goJoin ", " placeholders ++ ")"
    { q with wheres := q.wheres ++ [condition], args := q.args ++ values }

/-- Go `Query.WhereBetween`. -/
def Query.WhereBetween {α} (q : Query α) (field : String) (start finish : α) : Query α :=
  { q with wheres := q.wheres ++ [field ++ " BETWEEN ? AND ?"],
           args := q.args ++ [start, finish] }

/-- Go `Query.WhereLike` (the pattern is an argument value). -/
def Query.WhereLike {α} (q : Query α) (field : String) (pattern : α) : Query α :=
  { q with wheres := q.wheres ++ [field ++ " LIKE ?"], args := q.args ++ [pattern] }

/-- Go `Query.WhereNull`. -/
def Query.WhereNull {α} (q : Query α) (field : String) : Query α :=
  { q with wheres := q.wheres ++ [field ++ " IS NULL"] }

/-- Go `Query.WhereNotNull`. -/
def Query.WhereNotNull {α} (q : Query α) (field : String) : Query α :=
  { q with wheres := q.wheres ++ [field ++ " IS NOT NULL"] }

/-- Go `Query.Join`: appends the join text and the join's argument values. -/
def Query.Join {α} (q : Query α) (table condition : String) (args : List α) : Query α :=
  { q with joins := q.joins ++ ["JOIN " ++ table ++ " ON " ++ condition],
           args := q.args ++ args }

/-- Go `Query.LeftJoin`. -/
def Query.LeftJoin {α} (q : Query α) (table condition : String) (args : List α) : Query α :=
  { q with joins := q.joins ++ ["LEFT JOIN " ++ table ++ " ON " ++ condition],
           args := q.args ++ args }

/-- Go `Query.RightJoin`. -/
def Query.RightJoin {α} (q : Query α) (table condition : String) (args : List α) : Query α :=
  { q with joins := q.joins ++ ["RIGHT JOIN " ++ table ++ " ON " ++ condition],
           args := q.args ++ args }

/-- Go `Query.GroupBy`. -/
def Query.GroupBy {α} (q : Query α) (fields : List String) : Query α :=
  { q with groupBy := q.groupBy ++ fields }

/-- Go `Query.Having`. -/
def Query.Having {α} (q : Query α) (condition : String) (args : List α) : Query α :=
  { q with having := q.having ++ [condition], args := q.args ++ args }

/-- Direction string computed by Go `Query.OrderBy` from its variadic
`direction` parameter. -/
def orderDir (direction : List String) : String :=
  match direction with
  | [] => "ASC"
  | d :: _ => goToUpper d

/-- Go `Query.OrderBy`. -/
def Query.OrderBy {α} (q : Query α) (field : String) (direction : List String) : Query α :=
  { q with orderBy := q.orderBy ++ [field ++ " " ++ orderDir direction] }

/-- Go `Query.OrderByAsc`. -/
def Query.OrderByAsc {α} (q : Query α) (field : String) : Query α :=
  { q with orderBy := q.orderBy ++ [field ++ " ASC"] }

/-- Go `Query.OrderByDesc`. -/
def Query.OrderByDesc {α} (q : Query α) (field : String) : Query α :=
  { q with orderBy := q.orderBy ++ [field ++ " DESC"] }

/-- Go `Query.Limit`. -/
def Query.Limit {α} (q : Query α) (limit : Int) : Query α := { q with limit := limit }

/-- Go `Query.Offset`. -/
def Query.Offset {α} (q : Query α) (offset : Int) : Query α := { q with offset := offset }

/-- The `parts` list assembled by Go `Query.buildSQL` before the final
`strings.Join(parts, " ")`: fixed clause order `SELECT`, `FROM`, joins,
`WHERE`, `GROUP BY`, `HAVING`, `ORDER BY`, `LIMIT`, `OFFSET`, each
section included under the same condition as in the code. -/
def partsOf {α} (q : Query α) : List String :=
  ["SELECT " ++ (if q.distinct then "DISTINCT " else "") ++ goJoin ", " q.selects]
  ++ (if q.table = "" then [] else ["FROM " ++ q.table])
  ++ (if q.joins = [] then [] else [goJoin " " q.joins])
  ++ (if q.wheres = [] then [] else ["WHERE " ++ goJoin " AND " q.wheres])
  ++ (if q.groupBy = [] then [] else ["GROUP BY " ++ goJoin ", " q.groupBy])
  ++ (if q.having = [] then [] else ["HAVING " ++ goJoin " AND " q.having])
  ++ (if q.orderBy = [] then [] else ["ORDER BY " ++ goJoin ", " q.orderBy])
  ++ (if q.limit > 0 then ["LIMIT " ++ intStr q.limit] else [])
  ++ (if q.offset > 0 then ["OFFSET " ++ intStr q.offset] else [])

/-- Go `Query.buildSQL`. -/
def buildSQL {α} (q : Query α) : String := goJoin " " (partsOf q)

/-! ### Composition-call sequences and ghost instrumentation -/

/-- One composition call on the builder (the public chaining API of
query.go).  A sequence of these models an arbitrary caller. -/
inductive QOp (α : Type) where
  | Table (table : String)
  | Select (fields : List String)
  | Distinct
  | Where (condition : String) (args : List α)
  | WhereIn (field : String) (values : List α)
  | WhereNotIn (field : String) (values : List α)
  | WhereBetween (field : String) (start finish : α)
  | WhereLike (field : String) (pattern : α)
  | WhereNull (field : String)
  | WhereNotNull (field : String)
  | Join (table condition : String) (args : List α)
  | LeftJoin (table condition : String) (args : List α)
  | RightJoin (table condition : String) (args : List α)
  | GroupBy (fields : List String)
  | Having (condition : String) (args : List α)
  | OrderBy (field : String) (direction : List String)
  | OrderByAsc (field : String)
  | OrderByDesc (field : String)
  | Limit (limit : Int)
  | Offset (offset : Int)
deriving DecidableEq, Repr

/-- Dispatch one composition call to the corresponding builder method. -/
def applyOp {α} (q : Query α) : QOp α → Query α
  | .Table t => q.Table t
  | .Select fs => q.Select fs
  | .Distinct => q.Distinct
  | .Where c a => q.Where c a
  | .WhereIn f vs => q.WhereIn f vs
  | .WhereNotIn f vs => q.WhereNotIn f vs
  | .WhereBetween f s e => q.WhereBetween f s e
  | .WhereLike f p => q.WhereLike f p
  | .WhereNull f => q.WhereNull f
  | .WhereNotNull f => q.WhereNotNull f
  | .Join t c a => q.Join t c a
  | .LeftJoin t c a => q.LeftJoin t c a
  | .RightJoin t c a => q.RightJoin t c a
  | .GroupBy fs => q.GroupBy fs
  | .Having c a => q.Having c a
  | .OrderBy f d => q.OrderBy f d
  | .OrderByAsc f => q.OrderByAsc f
  | .OrderByDesc f => q.OrderByDesc f
  | .Limit l => q.Limit l
  | .Offset o => q.Offset o

/-- Builder state after a sequence of composition calls starting from
`NewQuery`. -/
def applyOps {α} (ops : List (QOp α)) : Query α := ops.foldl applyOp newQuery

/-- Well-formedness of a single call: every piece of caller-supplied text
that ends up in the statement carries exactly as many `?` markers as the
call supplies argument values (and markers never hide inside table,
projection, group-by or order-by names).  This is the implicit contract
under which spec invariant I1 is stated. -/
def wfOp {α} : QOp α → Bool
  | .Table t => countQ t == 0
  | .Select fs => fs.all (fun s => countQ s == 0)
  | .Distinct => true
  | .Where c a => countQ c == a.length
  | .WhereIn f _ => countQ f == 0
  | .WhereNotIn f _ => countQ f == 0
  | .WhereBetween f _ _ => countQ f == 0
  | .WhereLike f _ => countQ f == 0
  | .WhereNull f => countQ f == 0
  | .WhereNotNull f => countQ f == 0
  | .Join t c a => countQ t == 0 && countQ c == a.length
  | .LeftJoin t c a => countQ t == 0 && countQ c == a.length
  | .RightJoin t c a => countQ t == 0 && countQ c == a.length
  | .GroupBy fs => fs.all (fun s => countQ s == 0)
  | .Having c a => countQ c == a.length
  | .OrderBy f d => countQ (f ++ " " ++ orderDir d) == 0
  | .OrderByAsc f => countQ f == 0
  | .OrderByDesc f => countQ f == 0
  | .Limit _ => true
  | .Offset _ => true

/-- Argument values contributed by one call (what the call appends to
`q.args`). -/
def argsOf {α} : QOp α → List α
  | .Where _ a => a
  | .WhereIn _ vs => if vs.length = 0 then [] else vs
  | .WhereNotIn _ vs => if vs.length = 0 then [] else vs
  | .WhereBetween _ s e => [s, e]
  | .WhereLike _ p => [p]
  | .Join _ _ a => a
  | .LeftJoin _ _ a => a
  | .RightJoin _ _ a => a
  | .Having _ a => a
  | _ => []

/-- Emission rank of the clause a call contributes its arguments to:
joins render first (0), then the `WHERE` family (1), then `HAVING` (2).
Calls that contribute no arguments never enter rank comparisons. -/
def rankOf {α} : QOp α → Nat
  | .Join _ _ _ => 0
  | .LeftJoin _ _ _ => 0
  | .RightJoin _ _ _ => 0
  | .Having _ _ => 2
  | _ => 1

/-- Emission ranks of the argument-carrying calls of a sequence, in call
order. -/
def ranksFrom {α} (ops : List (QOp α)) : List Nat :=
  ops.filterMap (fun op => if (argsOf op).length = 0 then none else some (rankOf op))

/-- Adjacent-pairs monotonicity of a list of ranks. -/
def nondecreasing : List Nat → Bool
  | [] => true
  | [_] => true
  | a :: b :: t => a ≤ b && nondecreasing (b :: t)

/-- Builder state instrumented with a ghost decomposition of the flat
positional-argument list into the per-clause argument lists (`jArgs` for
joins, `wArgs` for the `WHERE` family, `hArgs` for `HAVING`).  The
underlying `q` evolves exactly as the code's builder does. -/
structure GQuery (α : Type) where
  q : Query α
  jArgs : List α := []
  wArgs : List α := []
  hArgs : List α := []
deriving DecidableEq, Repr

/-- Instrumented dispatch: the real state steps by `applyOp`, the ghost
lists record which clause received the call's arguments. -/
def applyG {α} (g : GQuery α) (op : QOp α) : GQuery α :=
  { q := applyOp g.q op,
    jArgs := g.jArgs ++ (if rankOf op = 0 then argsOf op else []),
    wArgs := g.wArgs ++ (if rankOf op = 1 then argsOf op else []),
    hArgs := g.hArgs ++ (if rankOf op = 2 then argsOf op else []) }

/-- Instrumented initial state. -/
def gInit {α : Type} : GQuery α := { q := newQuery }

/-- Instrumented state after a call sequence. -/
def applyGOps {α} (ops : List (QOp α)) : GQuery α := ops.foldl applyG gInit

/-- Argument values in clause-emission order (joins, then predicates,
then having): the order in which the rendered text's placeholders consume
them. -/
def emissionArgs {α} (g : GQuery α) : List α := g.jArgs ++ g.wArgs ++ g.hArgs

/-- Current emission level of the ghost state: the highest clause rank
that already holds arguments. -/
def curLevel {α} (g : GQuery α) : Nat :=
  if g.hArgs.length = 0 then (if g.wArgs.length = 0 then 0 else 1) else 2

/-- Total `?` count contributed by a list of clause strings. -/
def sumQ (l : List String) : Nat := (l.map countQ).sum

/-- Builder-state invariant behind spec invariant I1: no stray markers in
name positions, and the marker mass of joins + predicates + having equals
the accumulated argument count. -/
def QInv {α} (q : Query α) : Prop :=
  countQ q.table = 0 ∧ sumQ q.selects = 0 ∧ sumQ q.groupBy = 0 ∧ sumQ q.orderBy = 0 ∧
    sumQ q.joins + sumQ q.wheres + sumQ q.having = q.args.length

/-! ### Terminal operations (query.go) -/

/-- Outcome of the one blocking call to the external transport for a
single-row read (`db.QueryRow` + `Row.Scan`): either the transport fails,
or it returns `rows` result rows (zero rows make `Scan` report
`sql.ErrNoRows`). -/
inductive ExecResult where
  | failure (msg : String)
  | success (rows : Nat)
deriving DecidableEq, Repr

/-- Error value produced by `db.QueryRow`/`scanRow` for a transport
outcome: failures and the zero-row case surface as wrapped errors, a
scanned row yields no error. -/
def scanRowErr : ExecResult → Option String
  | .failure msg => some ("failed to scan row: " ++ msg)
  | .success 0 => some "failed to scan row: sql: no rows in result set"
  | .success (_ + 1) => none

/-- Go `Query.Get`: forces `limit = 1`, renders, executes.  Returns the
final builder state, the executed statement text and the error value. -/
def Query.Get {α} (q : Query α) (ε : ExecResult) : Query α × String × Option String :=
  let q1 := { q with limit := 1 }
  (q1, buildSQL q1, scanRowErr ε)

/-- Go `Query.Count`: saves `selects`, renders with `COUNT(*)`, executes,
restores `selects` unconditionally (the restore is straight-line code
after the execution, so it runs on the error path too). -/
def Query.Count {α} (q : Query α) (ε : ExecResult) : Query α × String × Option String :=
  let originalSelects := q.selects
  let q1 := { q with selects := ["COUNT(*)"] }
  let sql := buildSQL q1
  let err := scanRowErr ε
  let q2 := { q1 with selects := originalSelects }
  (q2, sql, err)

/-- Go `Query.Exists`: overwrites `selects` with `["1"]` and `limit` with
`1`, renders, executes, and returns `err == nil`; the original `selects`
is never written back. -/
def Query.Exists {α} (q : Query α) (ε : ExecResult) :
    Query α × String × Bool × Option String :=
  let q1 := { q with selects := ["1"], limit := 1 }
  let sql := buildSQL q1
  let err := scanRowErr ε
  (q1, sql, err.isNone, err)

/-- Inversion of one order-by entry inside Go `Query.Last`: replace the
first occurrence of `"ASC"` by `"DESC"` if the entry contains one,
otherwise the first `"DESC"` by `"ASC"`, otherwise append `" DESC"`. -/
def invertOrder (order : String) : String :=
  if goContains order "ASC" then goReplace1 order "ASC" "DESC"
  else if goContains order "DESC" then goReplace1 order "DESC" "ASC"
  else order ++ " DESC"

/-- Order-by list Go `Query.Last` executes with: the hard-coded
`"id DESC"` default when none was set, otherwise the entries inverted by
`invertOrder`. -/
def lastOrderBy (orderBy : List String) : List String :=
  if orderBy = [] then ["id DESC"] else orderBy.map invertOrder

/-- Go `Query.Last`: swaps `orderBy` for `lastOrderBy`, forces
`limit = 1`, executes through `Get`, then restores the original `orderBy`
unconditionally before returning the execution's error value. -/
def Query.Last {α} (q : Query α) (ε : ExecResult) : Query α × String × Option String :=
  let originalOrderBy := q.orderBy
  let q1 := { q with orderBy := lastOrderBy q.orderBy }
  let q2 := { q1 with limit := 1 }
  let r := q2.Get ε
  ({ r.1 with orderBy := originalOrderBy }, r.2.1, r.2.2)

/-- Go `Query.Update`: validation error on an empty field-value map,
otherwise a statement from table and predicates only, executed with the
`SET` values first and the builder's accumulated predicate arguments
after them.  The map is embedded as an association list; Go map iteration
order is unspecified, the list order stands for one such order.  Returns
the statement text and argument list handed to `db.Exec`. -/
def Query.Update {α} (q : Query α) (data : List (String × α)) :
    Except String (String × List α) :=
  if data.length = 0 then .error "no data to update"
  else
    let sets := data.map (fun p => p.1 ++ " = ?")
    let args := data.map (fun p => p.2) ++ q.args
    let sql := "UPDATE " ++ q.table ++ " SET " ++ goJoin ", " sets
    let sql := if q.wheres = [] then sql else sql ++ " WHERE " ++ goJoin " AND " q.wheres
    .ok (sql, args)

/-! ### Aggregate builder (aggregate.go) -/

/-- Accumulated aggregate projection strings (Go `type Aggregate struct`;
the back-pointer to the query is dropped, `Aggregate.Get`/`All` splice
`funcs` into the query's `selects`). -/
structure Aggregate where
  funcs : List String := []
deriving DecidableEq, Repr

/-- Go `Query.NewAggregate`. -/
def newAggregate : Aggregate := {}

/-- One call on the aggregate builder.  `Quantile` carries the `float64`
level as the exact rational value of the float; `TopK`, `TopKWeighted`
and `Histogram` carry their Go `int` parameters as integers. -/
inductive AggOp where
  | Sum (field : String)
  | Avg (field : String)
  | Min (field : String)
  | Max (field : String)
  | Count (field : String)
  | CountDistinct (field : String)
  | Uniq (field : String)
  | UniqExact (field : String)
  | Quantile (level : ℚ) (field : String)
  | Median (field : String)
  | StdDev (field : String)
  | Variance (field : String)
  | Any (field : String)
  | ArgMin (arg val : String)
  | ArgMax (arg val : String)
  | GroupArray (field : String)
  | GroupUniqArray (field : String)
  | TopK (k : Int) (field : String)
  | TopKWeighted (k : Int) (field weight : String)
  | Histogram (bins : Int) (field : String)
  | Corr (x y : String)
  | CovarPop (x y : String)
  | CovarSamp (x y : String)
  | SkewPop (field : String)
  | KurtPop (field : String)
  | Entropy (field : String)
  | GeometricMean (field : String)
  | HarmonicMean (field : String)

/-- Dispatch of one aggregate-builder call, appending exactly the
`fmt.Sprintf` string the corresponding Go method appends to `a.funcs`. -/
def applyAggOp (a : Aggregate) : AggOp → Aggregate
  | .Sum f => { funcs := a.funcs ++ ["SUM(" ++ f ++ ") as sum_" ++ f] }
  | .Avg f => { funcs := a.funcs ++ ["AVG(" ++ f ++ ") as avg_" ++ f] }
  | .Min f => { funcs := a.funcs ++ ["MIN(" ++ f ++ ") as min_" ++ f] }
  | .Max f => { funcs := a.funcs ++ ["MAX(" ++ f ++ ") as max_" ++ f] }
  | .Count f =>
      if f = "*" then { funcs := a.funcs ++ ["COUNT(*) as count"] }
      else { funcs := a.funcs ++ ["COUNT(" ++ f ++ ") as count_" ++ f] }
  | .CountDistinct f =>
      { funcs := a.funcs ++ ["COUNT(DISTINCT " ++ f ++ ") as count_distinct_" ++ f] }
  | .Uniq f => { funcs := a.funcs ++ ["uniq(" ++ f ++ ") as uniq_" ++ f] }
  | .UniqExact f => { funcs := a.funcs ++ ["uniqExact(" ++ f ++ ") as uniq_exact_" ++ f] }
  | .Quantile level f =>
      { funcs := a.funcs ++
          ["quantile(" ++ goFmtF6 level ++ ")(" ++ f ++ ") as quantile_" ++
            goFmtF6 level ++ "_" ++ f] }
  | .Median f => { funcs := a.funcs ++ ["median(" ++ f ++ ") as median_" ++ f] }
  | .StdDev f => { funcs := a.funcs ++ ["stddev(" ++ f ++ ") as stddev_" ++ f] }
  | .Variance f => { funcs := a.funcs ++ ["varSamp(" ++ f ++ ") as variance_" ++ f] }
  | .Any f => { funcs := a.funcs ++ ["any(" ++ f ++ ") as any_" ++ f] }
  | .ArgMin x v =>
      { funcs := a.funcs ++ ["argMin(" ++ x ++ ", " ++ v ++ ") as argmin_" ++ x ++ "_" ++ v] }
  | .ArgMax x v =>
      { funcs := a.funcs ++ ["argMax(" ++ x ++ ", " ++ v ++ ") as argmax_" ++ x ++ "_" ++ v] }
  | .GroupArray f =>
      { funcs := a.funcs ++ ["groupArray(" ++ f ++ ") as group_array_" ++ f] }
  | .GroupUniqArray f =>
      { funcs := a.funcs ++ ["groupUniqArray(" ++ f ++ ") as group_uniq_array_" ++ f] }
  | .TopK k f =>
      { funcs := a.funcs ++
          ["topK(" ++ intStr k ++ ")(" ++ f ++ ") as topk_" ++ intStr k ++ "_" ++ f] }
  | .TopKWeighted k f w =>
      { funcs := a.funcs ++
          ["topKWeighted(" ++ intStr k ++ ")(" ++ f ++ ", " ++ w ++ ") as topk_weighted_" ++
            intStr k ++ "_" ++ f ++ "_" ++ w] }
  | .Histogram bins f =>
      { funcs := a.funcs ++
          ["histogram(" ++ intStr bins ++ ")(" ++ f ++ ") as histogram_" ++
            intStr bins ++ "_" ++ f] }
  | .Corr x y =>
      { funcs := a.funcs ++ ["corr(" ++ x ++ ", " ++ y ++ ") as corr_" ++ x ++ "_" ++ y] }
  | .CovarPop x y =>
      { funcs := a.funcs ++
          ["covarPop(" ++ x ++ ", " ++ y ++ ") as covar_pop_" ++ x ++ "_" ++ y] }
  | .CovarSamp x y =>
      { funcs := a.funcs ++
          ["covarSamp(" ++ x ++ ", " ++ y ++ ") as covar_samp_" ++ x ++ "_" ++ y] }
  | .SkewPop f => { funcs := a.funcs ++ ["skewPop(" ++ f ++ ") as skew_pop_" ++ f] }
  | .KurtPop f => { funcs := a.funcs ++ ["kurtPop(" ++ f ++ ") as kurt_pop_" ++ f] }
  | .Entropy f => { funcs := a.funcs ++ ["entropy(" ++ f ++ ") as entropy_" ++ f] }
  | .GeometricMean f =>
      { funcs := a.funcs ++ ["geometricMean(" ++ f ++ ") as geometric_mean_" ++ f] }
  | .HarmonicMean f =>
      { funcs := a.funcs ++ ["harmonicMean(" ++ f ++ ") as harmonic_mean_" ++ f] }

/-- Expression half of the specification table for aggregate operations
(spec section 4.2, column "Expression template"). -/
def aggExpr : AggOp → String
  | .Sum f => "SUM(" ++ f ++ ")"
  | .Avg f => "AVG(" ++ f ++ ")"
  | .Min f => "MIN(" ++ f ++ ")"
  | .Max f => "MAX(" ++ f ++ ")"
  | .Count f => if f = "*" then "COUNT(*)" else "COUNT(" ++ f ++ ")"
  | .CountDistinct f => "COUNT(DISTINCT " ++ f ++ ")"
  | .Uniq f => "uniq(" ++ f ++ ")"
  | .UniqExact f => "uniqExact(" ++ f ++ ")"
  | .Quantile level f => "quantile(" ++ goFmtF6 level ++ ")(" ++ f ++ ")"
  | .Median f => "median(" ++ f ++ ")"
  | .StdDev f => "stddev(" ++ f ++ ")"
  | .Variance f => "varSamp(" ++ f ++ ")"
  | .Any f => "any(" ++ f ++ ")"
  | .ArgMin x v => "argMin(" ++ x ++ ", " ++ v ++ ")"
  | .ArgMax x v => "argMax(" ++ x ++ ", " ++ v ++ ")"
  | .GroupArray f => "groupArray(" ++ f ++ ")"
  | .GroupUniqArray f => "groupUniqArray(" ++ f ++ ")"
  | .TopK k f => "topK(" ++ intStr k ++ ")(" ++ f ++ ")"
  | .TopKWeighted k f w => "topKWeighted(" ++ intStr k ++ ")(" ++ f ++ ", " ++ w ++ ")"
  | .Histogram bins f => "histogram(" ++ intStr bins ++ ")(" ++ f ++ ")"
  | .Corr x y => "corr(" ++ x ++ ", " ++ y ++ ")"
  | .CovarPop x y => "covarPop(" ++ x ++ ", " ++ y ++ ")"
  | .CovarSamp x y => "covarSamp(" ++ x ++ ", " ++ y ++ ")"
  | .SkewPop f => "skewPop(" ++ f ++ ")"
  | .KurtPop f => "kurtPop(" ++ f ++ ")"
  | .Entropy f => "entropy(" ++ f ++ ")"
  | .GeometricMean f => "geometricMean(" ++ f ++ ")"
  | .HarmonicMean f => "harmonicMean(" ++ f ++ ")"

/-- Alias half of the specification table for aggregate operations (spec
section 4.2, column "Alias template"; the quantile level is rendered with
six decimal places, `count("*")` has alias `count` with no suffix). -/
def aggAlias : AggOp → String
  | .Sum f => "sum_" ++ f
  | .Avg f => "avg_" ++ f
  | .Min f => "min_" ++ f
  | .Max f => "max_" ++ f
  | .Count f => if f = "*" then "count" else "count_" ++ f
  | .CountDistinct f => "count_distinct_" ++ f
  | .Uniq f => "uniq_" ++ f
  | .UniqExact f => "uniq_exact_" ++ f
  | .Quantile level f => "quantile_" ++ goFmtF6 level ++ "_" ++ f
  | .Median f => "median_" ++ f
  | .StdDev f => "stddev_" ++ f
  | .Variance f => "variance_" ++ f
  | .Any f => "any_" ++ f
  | .ArgMin x v => "argmin_" ++ x ++ "_" ++ v
  | .ArgMax x v => "argmax_" ++ x ++ "_" ++ v
  | .GroupArray f => "group_array_" ++ f
  | .GroupUniqArray f => "group_uniq_array_" ++ f
  | .TopK k f => "topk_" ++ intStr k ++ "_" ++ f
  | .TopKWeighted k f w => "topk_weighted_" ++ intStr k ++ "_" ++ f ++ "_" ++ w
  | .Histogram bins f => "histogram_" ++ intStr bins ++ "_" ++ f
  | .Corr x y => "corr_" ++ x ++ "_" ++ y
  | .CovarPop x y => "covar_pop_" ++ x ++ "_" ++ y
  | .CovarSamp x y => "covar_samp_" ++ x ++ "_" ++ y
  | .SkewPop f => "skew_pop_" ++ f
  | .KurtPop f => "kurt_pop_" ++ f
  | .Entropy f => "entropy_" ++ f
  | .GeometricMean f => "geometric_mean_" ++ f
  | .HarmonicMean f => "harmonic_mean_" ++ f

/-! ### Window builder (aggregate.go) -/

/-- Go `type Window struct` (the query back-pointer is passed explicitly
to `AddToQuery`). -/
structure Window where
  function : String := ""
  over : String := ""
  aliasName : String := ""
deriving DecidableEq, Repr

/-- Go `Query.NewWindow`. -/
def newWindow : Window := {}

/-- Go `Window.RowNumber`. -/
def Window.RowNumber (w : Window) : Window := { w with function := "ROW_NUMBER()" }

/-- Go `Window.Rank`. -/
def Window.Rank (w : Window) : Window := { w with function := "RANK()" }

/-- Go `Window.DenseRank`. -/
def Window.DenseRank (w : Window) : Window := { w with function := "DENSE_RANK()" }

/-- Go `Window.Lag`. -/
def Window.Lag (w : Window) (field : String) (offset : Int) : Window :=
  { w with function := "LAG(" ++ field ++ ", " ++ intStr offset ++ ")" }

/-- Go `Window.Lead`. -/
def Window.Lead (w : Window) (field : String) (offset : Int) : Window :=
  { w with function := "LEAD(" ++ field ++ ", " ++ intStr offset ++ ")" }

/-- Go `Window.FirstValue`. -/
def Window.FirstValue (w : Window) (field : String) : Window :=
  { w with function := "FIRST_VALUE(" ++ field ++ ")" }

/-- Go `Window.LastValue`. -/
def Window.LastValue (w : Window) (field : String) : Window :=
  { w with function := "LAST_VALUE(" ++ field ++ ")" }

/-- Go `Window.NthValue`. -/
def Window.NthValue (w : Window) (field : String) (n : Int) : Window :=
  { w with function := "NTH_VALUE(" ++ field ++ ", " ++ intStr n ++ ")" }

/-- Go `Window.Ntile`. -/
def Window.Ntile (w : Window) (buckets : Int) : Window :=
  { w with function := "NTILE(" ++ intStr buckets ++ ")" }

/-- Go `Window.PercentRank`. -/
def Window.PercentRank (w : Window) : Window := { w with function := "PERCENT_RANK()" }

/-- Go `Window.CumeDist`. -/
def Window.CumeDist (w : Window) : Window := { w with function := "CUME_DIST()" }

/-- Go `Window.Over`: collects the nonempty sub-clauses and always writes
`"OVER (" ++ … ++ ")"` into `w.over` — also when both sub-expressions are
empty, in which case `w.over` becomes the nonempty string `"OVER ()"`. -/
def Window.Over (w : Window) (partitionBy orderBy : String) : Window :=
  let parts : List String :=
    (if partitionBy ≠ "" then ["PARTITION BY " ++ partitionBy] else [])
    ++ (if orderBy ≠ "" then ["ORDER BY " ++ orderBy] else [])
  { w with over := "OVER (" ++ goJoin " " parts ++ ")" }

/-- Go `Window.As`. -/
def Window.As (w : Window) (a : String) : Window := { w with aliasName := a }

/-- Go `Window.Build`. -/
def Window.Build (w : Window) : String :=
  if w.function = "" then ""
  else
    (w.function ++ (if w.over ≠ "" then " " ++ w.over else ""))
      ++ (if w.aliasName ≠ "" then " AS " ++ w.aliasName else "")

/-- Go `Window.AddToQuery`: appends the built projection to the query's
`selects` when a function was chosen and the build is nonempty. -/
def Window.AddToQuery {α} (w : Window) (q : Query α) : Query α :=
  if w.function = "" then q
  else if w.Build ≠ "" then { q with selects := q.selects ++ [w.Build] } else q

/-! ### Mapper: schema derivation (mapper.go) -/

/-- Go kind of a record field or runtime value, as discriminated by
`reflect.Kind` in `goTypeToClickHouseType` and `SetFieldValue`.
`tStruct name` carries `reflect.Type.String()` (so `time.Time` is
recognizable); `tOther` stands for the remaining kinds (map, chan,
pointer, …), which all fall to the default branches. -/
inductive GoType where
  | tBool
  | tInt | tInt8 | tInt16 | tInt32 | tInt64
  | tUint | tUint8 | tUint16 | tUint32 | tUint64
  | tFloat32 | tFloat64
  | tString
  | tSlice (elem : GoType)
  | tArray (elem : GoType)
  | tStruct (name : String)
  | tOther (name : String)
deriving DecidableEq, Repr

/-- Go `Mapper.goTypeToClickHouseType`. -/
def goTypeToClickHouseType : GoType → String
  | .tBool => "Boolean"
  | .tInt => "Int32"
  | .tInt8 => "Int32"
  | .tInt16 => "Int32"
  | .tInt32 => "Int32"
  | .tInt64 => "Int64"
  | .tUint => "UInt32"
  | .tUint8 => "UInt32"
  | .tUint16 => "UInt32"
  | .tUint32 => "UInt32"
  | .tUint64 => "UInt64"
  | .tFloat32 => "Float32"
  | .tFloat64 => "Float64"
  | .tString => "String"
  | .tSlice e => "Array(" ++ goTypeToClickHouseType e ++ ")"
  | .tArray e => "Array(" ++ goTypeToClickHouseType e ++ ")"
  | .tStruct n => if n = "time.Time" then "DateTime" else "String"
  | .tOther _ => "String"

/-- Metadata of one struct field as read through `reflect.StructField`:
the Go field name, the `ch`, `ch_type`, `ch_pk`, `ch_auto`, `ch_nullable`
and `ch_table` tag values (`Tag.Get` returns `""` when the tag is
absent), and the field's Go kind. -/
structure FieldMeta where
  name : String
  chTag : String := ""
  chTypeTag : String := ""
  chPkTag : String := ""
  chAutoTag : String := ""
  chNullableTag : String := ""
  chTableTag : String := ""
  typ : GoType
deriving DecidableEq, Repr

/-- Go `type FieldInfo struct` (types.go). -/
structure FieldInfo where
  Name : String
  Typ : String
  Tag : String := ""
  IsPK : Bool := false
  IsAuto : Bool := false
  Nullable : Bool := false
deriving DecidableEq, Repr

/-- Go `type TableInfo struct` (types.go); the `Options` map is embedded
as an association list. -/
structure TableInfo where
  Name : String
  Fields : List FieldInfo
  Engine : String
  Options : List (String × String)
deriving DecidableEq, Repr

/-- Go `Mapper.parseField` (it never returns a non-nil error). -/
def parseField (f : FieldMeta) : FieldInfo :=
  { Name := if f.chTag ≠ "" then f.chTag else f.name,
    Typ := if f.chTypeTag ≠ "" then f.chTypeTag else goTypeToClickHouseType f.typ,
    Tag := "",
    IsPK := f.chPkTag = "true",
    IsAuto := f.chAutoTag = "true",
    Nullable := f.chNullableTag = "true" }

/-- A record type as the mapper sees it: the `reflect` type name, whether
the type implements the `Model` interface (and what its `TableName()`
returns), and the ordered field metadata.  Only struct inputs are
embedded; `ParseStruct`'s non-struct error path needs a non-struct Go
value and is outside this model. -/
structure StructDesc where
  typeName : String
  tableNameMethod : Option String := none
  fields : List FieldMeta
deriving DecidableEq, Repr

/-- Go `Mapper.getTableName`: a `Model` implementation wins; otherwise
the code reads `typ.Field(0).Tag.Get("ch_table")`, which panics with an
index-out-of-range fault on a struct with zero fields (`.error` marks
that panic); otherwise the lower-cased type name. -/
def getTableName (model : StructDesc) : Except String String :=
  match model.tableNameMethod with
  | some n => .ok n
  | none =>
    match model.fields with
    | [] => .error "reflect: Field index out of range"
    | f :: _ => if f.chTableTag ≠ "" then .ok f.chTableTag else .ok (goToLower model.typeName)

/-- Go `type Mapper struct`: the schema cache keyed by table name,
embedded as an association list (first binding wins on lookup). -/
structure Mapper where
  registry : List (String × TableInfo) := []
deriving DecidableEq, Repr

/-- Go `NewMapper`. -/
def newMapper : Mapper := {}

/-- Lookup in the registry map. -/
def lookupReg : List (String × TableInfo) → String → Option TableInfo
  | [], _ => none
  | (k, v) :: t, name => if k = name then some v else lookupReg t name

/-- Result of `Mapper.ParseStruct` on a struct input: a runtime panic
(from `getTableName` on a zero-field struct) or the updated mapper and
the derived/cached table descriptor. -/
inductive ParseOutcome where
  | panicked (msg : String)
  | ok (m : Mapper) (info : TableInfo)
deriving DecidableEq, Repr

/-- Go `Mapper.ParseStruct`: resolve the table name (possibly panicking),
return the cached descriptor if one exists for that name, otherwise parse
every field, keep those with a nonempty name, build the descriptor with
the `MergeTree` default engine and empty options, and cache it. -/
def ParseStruct (m : Mapper) (model : StructDesc) : ParseOutcome :=
  match getTableName model with
  | .error msg => .panicked msg
  | .ok tableName =>
    match lookupReg m.registry tableName with
    | some info => .ok m info
    | none =>
      let fields := (model.fields.map parseField).filter (fun fi => fi.Name ≠ "")
      let info : TableInfo :=
        { Name := tableName, Fields := fields, Engine := "MergeTree", Options := [] }
      .ok { registry := (tableName, info) :: m.registry } info

/-- Go `Mapper.BuildCreateTableSQL`. -/
def BuildCreateTableSQL (info : TableInfo) : String :=
  let columns := info.Fields.map (fun f =>
    ("`" ++ f.Name ++ "` " ++ f.Typ)
      ++ (if f.IsPK then " PRIMARY KEY" else "")
      ++ (if f.IsAuto then " AUTO_INCREMENT" else ""))
  let engine := if info.Engine = "" then "MergeTree" else info.Engine
  let sql := "CREATE TABLE IF NOT EXISTS `" ++ info.Name ++ "` (\n  "
    ++ goJoin ",\n  " columns ++ "\n) ENGINE = " ++ engine
  if info.Options.length > 0 then
    sql ++ "(" ++ goJoin ", " (info.Options.map (fun p => p.1 ++ " = " ++ p.2)) ++ ")"
  else sql

/-! ### Mapper: generic field writing (`SetFieldValue`, mapper.go) -/

/-- A Go runtime value as discriminated by the type switches of
`SetFieldValue`.  Numeric payloads are the mathematical values; float
payloads are opaque bit patterns (no float arithmetic is performed by the
code, only conversions, which are abstracted in `GoStd`). -/
inductive GoValue where
  | vBool (b : Bool)
  | vInt (n : Int)
  | vInt8 (n : Int)
  | vInt16 (n : Int)
  | vInt32 (n : Int)
  | vInt64 (n : Int)
  | vUint (n : Nat)
  | vUint8 (n : Nat)
  | vUint16 (n : Nat)
  | vUint32 (n : Nat)
  | vUint64 (n : Nat)
  | vFloat32 (bits : Nat)
  | vFloat64 (bits : Nat)
  | vString (s : String)
  | vStruct (typeName : String)
  | vOther (typeName : String)
deriving DecidableEq, Repr

/-- Runtime type of a value (Go `reflect.TypeOf`). -/
def dynType : GoValue → GoType
  | .vBool _ => .tBool
  | .vInt _ => .tInt
  | .vInt8 _ => .tInt8
  | .vInt16 _ => .tInt16
  | .vInt32 _ => .tInt32
  | .vInt64 _ => .tInt64
  | .vUint _ => .tUint
  | .vUint8 _ => .tUint8
  | .vUint16 _ => .tUint16
  | .vUint32 _ => .tUint32
  | .vUint64 _ => .tUint64
  | .vFloat32 _ => .tFloat32
  | .vFloat64 _ => .tFloat64
  | .vString _ => .tString
  | .vStruct n => .tStruct n
  | .vOther n => .tOther n

/-- Go standard-library collaborators used by `SetFieldValue`, abstracted
as uninterpreted functions: `fmt.Sprintf("%v", _)`, the
`strconv.Parse{Int,Uint,Float,Bool}` parsers (`none` models a parse
error), and the float32/float64 conversions on bit patterns. -/
structure GoStd where
  fmtV : GoValue → String
  parseInt64 : String → Option Int
  parseUint64 : String → Option Nat
  parseFloat64 : String → Option Nat
  parseBool : String → Option Bool
  f32to64 : Nat → Nat
  f64to32 : Nat → Nat

/-- A destination struct as an ordered list of
(Go field name, declared type, current value) triples; addressable and
settable (the code's pointer and `CanSet` guards are about the Go calling
convention, not about statement state). -/
abbrev GoStruct := List (String × GoType × GoValue)

/-- Field lookup by Go field name (`reflect.Value.FieldByName`). -/
def findField : GoStruct → String → Option (GoType × GoValue)
  | [], _ => none
  | (n, t, v) :: rest, name => if n = name then some (t, v) else findField rest name

/-- Overwrite the named field's value. -/
def updateField : GoStruct → String → GoValue → GoStruct
  | [], _, _ => []
  | (n, t, v) :: rest, name, nv =>
    if n = name then (n, t, nv) :: rest else (n, t, v) :: updateField rest name nv

/-- Signed range check of `reflect.Value.SetInt` for a destination kind
(the Go `int` field width is modelled as 64-bit). -/
def intFits (k : GoType) (n : Int) : Bool :=
  match k with
  | .tInt8 => -128 ≤ n && n < 128
  | .tInt16 => -32768 ≤ n && n < 32768
  | .tInt32 => -2147483648 ≤ n && n < 2147483648
  | _ => -9223372036854775808 ≤ n && n < 9223372036854775808

/-- Unsigned range check of `reflect.Value.SetUint`. -/
def uintFits (k : GoType) (n : Nat) : Bool :=
  match k with
  | .tUint8 => n < 256
  | .tUint16 => n < 65536
  | .tUint32 => n < 4294967296
  | _ => n < 18446744073709551616

/-- Go conversion `int64(u)` of a `uint64` value. -/
def int64Wrap (u : Nat) : Int :=
  if u < 9223372036854775808 then (u : Int) else (u : Int) - 18446744073709551616

/-- Go conversion `uint64(n)` of a signed value. -/
def uint64Wrap (n : Int) : Nat := (n % 18446744073709551616).toNat

/-- Outcome of `Mapper.SetFieldValue`: a reflect panic (`SetInt`/`SetUint`
overflow), an error value, or the updated struct (a `nil` return). -/
inductive SetOutcome where
  | panicked (msg : String)
  | errored (msg : String)
  | ok (s : GoStruct)
deriving DecidableEq

/-- Value stored by `reflect.Value.SetInt` into a field of signed kind. -/
def mkIntVal (k : GoType) (n : Int) : GoValue :=
  match k with
  | .tInt8 => .vInt8 n
  | .tInt16 => .vInt16 n
  | .tInt32 => .vInt32 n
  | .tInt64 => .vInt64 n
  | _ => .vInt n

/-- Value stored by `reflect.Value.SetUint` into a field of unsigned kind. -/
def mkUintVal (k : GoType) (n : Nat) : GoValue :=
  match k with
  | .tUint8 => .vUint8 n
  | .tUint16 => .vUint16 n
  | .tUint32 => .vUint32 n
  | .tUint64 => .vUint64 n
  | _ => .vUint n

/-- Value stored by `reflect.Value.SetFloat` (converting to `float32`
when the destination is a `float32` field). -/
def mkFloatVal (std : GoStd) (k : GoType) (bits : Nat) : GoValue :=
  match k with
  | .tFloat32 => .vFloat32 (std.f64to32 bits)
  | _ => .vFloat64 bits

/-- `SetInt` step: store when the value fits the destination width,
otherwise the reflect overflow panic. -/
def trySetInt (s : GoStruct) (name : String) (k : GoType) (n : Int) : SetOutcome :=
  if intFits k n then .ok (updateField s name (mkIntVal k n))
  else .panicked "reflect.Value.SetInt: value out of range"

/-- `SetUint` step. -/
def trySetUint (s : GoStruct) (name : String) (k : GoType) (n : Nat) : SetOutcome :=
  if uintFits k n then .ok (updateField s name (mkUintVal k n))
  else .panicked "reflect.Value.SetUint: value out of range"

/-- Go `Mapper.SetFieldValue` on a settable struct: direct set on exact
runtime-type match, otherwise the kind-directed conversion switch; every
combination the switch does not list falls through to the final
`return nil` with the field untouched. -/
def SetFieldValue (std : GoStd) (s : GoStruct) (fieldName : String) (value : GoValue) :
    SetOutcome :=
  match findField s fieldName with
  | none => .errored ("field " ++ fieldName ++ " not found")
  | some (ft, _) =>
    if ft = dynType value then .ok (updateField s fieldName value)
    else
      match ft with
      | .tString => .ok (updateField s fieldName (.vString (std.fmtV value)))
      | .tInt | .tInt8 | .tInt16 | .tInt32 | .tInt64 =>
        (match value with
        | .vInt64 n => trySetInt s fieldName ft n
        | .vInt32 n => trySetInt s fieldName ft n
        | .vInt16 n => trySetInt s fieldName ft n
        | .vInt8 n => trySetInt s fieldName ft n
        | .vUint64 u => trySetInt s fieldName ft (int64Wrap u)
        | .vUint32 u => trySetInt s fieldName ft (u : Int)
        | .vUint16 u => trySetInt s fieldName ft (u : Int)
        | .vUint8 u => trySetInt s fieldName ft (u : Int)
        | .vString str =>
          (match std.parseInt64 str with
          | some n => trySetInt s fieldName ft n
          | none => .ok s)
        | _ => .ok s)
      | .tUint | .tUint8 | .tUint16 | .tUint32 | .tUint64 =>
        (match value with
        | .vUint64 u => trySetUint s fieldName ft u
        | .vUint32 u => trySetUint s fieldName ft u
        | .vUint16 u => trySetUint s fieldName ft u
        | .vUint8 u => trySetUint s fieldName ft u
        | .vInt64 n => trySetUint s fieldName ft (uint64Wrap n)
        | .vInt32 n => trySetUint s fieldName ft (uint64Wrap n)
        | .vInt16 n => trySetUint s fieldName ft (uint64Wrap n)
        | .vInt8 n => trySetUint s fieldName ft (uint64Wrap n)
        | .vString str =>
          (match std.parseUint64 str with
          | some n => trySetUint s fieldName ft n
          | none => .ok s)
        | _ => .ok s)
      | .tFloat32 | .tFloat64 =>
        (match value with
        | .vFloat64 b => .ok (updateField s fieldName (mkFloatVal std ft b))
        | .vFloat32 b => .ok (updateField s fieldName (mkFloatVal std ft (std.f32to64 b)))
        | .vString str =>
          (match std.parseFloat64 str with
          | some b => .ok (updateField s fieldName (mkFloatVal std ft b))
          | none => .ok s)
        | _ => .ok s)
      | .tBool =>
        (match value with
        | .vBool b => .ok (updateField s fieldName (.vBool b))
        | .vString str =>
          (match std.parseBool str with
          | some b => .ok (updateField s fieldName (.vBool b))
          | none => .ok s)
        | _ => .ok s)
      | _ => .ok s

/-- The (destination kind, source runtime type) combinations for which
`SetFieldValue`'s conversion switch has a case (an exact type match is
always recognized; string destinations accept everything; note that a
value of Go type `int` or `uint` is NOT listed in the numeric switches). -/
def recognized (ft vt : GoType) : Bool :=
  if ft = vt then true
  else
    match ft with
    | .tString => true
    | .tInt | .tInt8 | .tInt16 | .tInt32 | .tInt64 =>
      (match vt with
      | .tInt8 | .tInt16 | .tInt32 | .tInt64
      | .tUint8 | .tUint16 | .tUint32 | .tUint64 | .tString => true
      | _ => false)
    | .tUint | .tUint8 | .tUint16 | .tUint32 | .tUint64 =>
      (match vt with
      | .tInt8 | .tInt16 | .tInt32 | .tInt64
      | .tUint8 | .tUint16 | .tUint32 | .tUint64 | .tString => true
      | _ => false)
    | .tFloat32 | .tFloat64 =>
      (match vt with
      | .tFloat32 | .tFloat64 | .tString => true
      | _ => false)
    | .tBool =>
      (match vt with
      | .tBool | .tString => true
      | _ => false)
    | _ => false

/-! ### Concrete inputs used by witnesses and counterexamples -/

/-- A call sequence whose argument-carrying calls occur in emission order
(join before predicate). -/
def opsEmissionOrdered : List (QOp Nat) :=
  [.Table "t1", .Join "t2" "t1.id = t2.id AND t2.v = ?" [5], .Where "a = ?" [7],
   .OrderByAsc "a", .Limit 10]

/-- A call sequence that attaches a join carrying an argument after a
predicate carrying an argument. -/
def opsJoinAfterWhere : List (QOp Nat) :=
  [.Table "t1", .Where "a = ?" [1], .Join "t2" "b = ?" [2]]

/-- A record type with a primary-key field and a plain field, no
`TableName` method. -/
def userModel : StructDesc :=
  { typeName := "User",
    fields := [{ name := "ID", chTag := "id", chTypeTag := "UInt32", chPkTag := "true",
                 typ := .tUint32 },
               { name := "Name", chTag := "name", typ := .tString }] }

/-- The same table name resolved from different (changed) metadata:
spec invariant I3 says the cache must win. -/
def userModelChanged : StructDesc :=
  { typeName := "User",
    fields := [{ name := "ID", chTag := "identifier", chTypeTag := "UInt64",
                 typ := .tUint64 }] }

/-- A record type with zero fields and no `TableName` method. -/
def emptyModel : StructDesc := { typeName := "Empty", fields := [] }

/-- A concrete instantiation of the standard-library collaborators, used
only to instantiate universally quantified witnesses. -/
def stdStub : GoStd :=
  { fmtV := fun _ => "", parseInt64 := fun _ => none, parseUint64 := fun _ => none,
    parseFloat64 := fun _ => none, parseBool := fun _ => none,
    f32to64 := id, f64to32 := id }

/-- A struct with a single boolean field. -/
def boolStruct : GoStruct := [("Flag", GoType.tBool, GoValue.vBool false)]

/-- The exact rational value `19/20` carried by the `float64` literal
`0.95` after rounding to six decimals (used as a quantile level). -/
def level095 : ℚ := ⟨19, 20, by norm_num, by norm_num⟩

/-- An order-by field name is clean when neither direction keyword occurs
inside it as a substring — the situation `invertOrder`'s
`strings.Contains`-based dispatch silently assumes. -/
abbrev cleanField (f : String) : Prop :=
  goContains f "ASC" = false ∧ goContains f "DESC" = false

/-- Descriptor derived from `userModel` (expected cache content). -/
def userTableInfo : TableInfo :=
  { Name := "user",
    Fields := [{ Name := "id", Typ := "UInt32", IsPK := true },
               { Name := "name", Typ := "String" }],
    Engine := "MergeTree", Options := [] }

/-- Mapper state after deriving `userModel` once. -/
def userMapper1 : Mapper := { registry := [("user", userTableInfo)] }

/-! ### Placeholder-counting lemmas -/

/-- Placeholder counts add over string concatenation. -/
@[simp] theorem countQ_append (a b : String) : countQ (a ++ b) = countQ a + countQ b := by
  show countQL (a ++ b).data = countQL a.data + countQL b.data
  rw [String.data_append]
  simp [countQL]

/-- Placeholder mass of an empty clause list. -/
@[simp] theorem sumQ_nil : sumQ [] = 0 := rfl

/-- Placeholder mass of a clause list, head and tail. -/
@[simp] theorem sumQ_cons (x : String) (l : List String) :
    sumQ (x :: l) = countQ x + sumQ l := by simp [sumQ]

/-- Placeholder mass adds over clause-list concatenation. -/
@[simp] theorem sumQ_append (a b : List String) : sumQ (a ++ b) = sumQ a + sumQ b := by
  simp [sumQ]

/-- Joining with a marker-free separator preserves total placeholder
count. -/
theorem countQ_goJoin (sep : String) (h : countQ sep = 0) :
    ∀ l : List String, countQ (goJoin sep l) = sumQ l := by
  intro l
  induction l with
  | nil => simp [goJoin, countQ, countQL]
  | cons x xs ih =>
    cases xs with
    | nil => simp [goJoin]
    | cons y t =>
      rw [goJoin, countQ_append, countQ_append, ih, h]
      simp only [sumQ_cons]
      omega

/-- Digit characters are never the placeholder marker. -/
theorem digChar_ne (d : Nat) (h : d < 10) : (digChar d == '?') = false := by
  interval_cases d <;> decide

/-- Decimal digit strings contain no placeholder marker. -/
theorem countQL_natCharsFuel (fuel : Nat) : ∀ n, countQL (natCharsFuel fuel n) = 0 := by
  induction fuel with
  | zero => intro n; rfl
  | succ fuel ih =>
    intro n
    rw [natCharsFuel]
    split
    · simp [countQL, List.count_cons, List.count_nil, digChar_ne n (by omega)]
    · simp [countQL, List.count_append, List.count_cons, List.count_nil,
        digChar_ne (n % 10) (Nat.mod_lt n (by omega))]
      exact ih (n / 10)

/-- Rendered naturals contain no placeholder marker. -/
theorem countQ_natStr (n : Nat) : countQ (natStr n) = 0 := countQL_natCharsFuel (n + 1) n

/-- Rendered integers contain no placeholder marker. -/
theorem countQ_intStr (i : Int) : countQ (intStr i) = 0 := by
  rw [intStr]
  split
  · rw [countQ_append, countQ_natStr]; decide
  · exact countQ_natStr i.toNat

/-- A constant-`"?"` map is a replicate. -/
theorem mapConstQ {α : Type} (l : List α) :
    l.map (fun _ => "?") = List.replicate l.length "?" := by
  induction l with
  | nil => rfl
  | cons x xs ih => simp [List.replicate, ih]

/-- The generated `IN` placeholder list renders one marker per value. -/
theorem countQ_goJoin_replicate : ∀ n, countQ (goJoin ", " (List.replicate n "?")) = n := by
  intro n
  induction n with
  | zero => rfl
  | succ n ih =>
    cases n with
    | zero => decide
    | succ m =>
      rw [List.replicate, List.replicate, goJoin, ← List.replicate]
      rw [countQ_append, countQ_append, ih]
      have : countQ "?" = 1 := by decide
      have : countQ ", " = 0 := by decide
      omega

/-! ### The builder invariant behind spec invariant I1 -/

/-- The fresh builder satisfies the invariant. -/
theorem qinv_newQuery {α : Type} : QInv (newQuery : Query α) := by
  refine ⟨rfl, ?_, rfl, rfl, rfl⟩
  exact (by decide : sumQ ["*"] = 0)

/-- Rendering under the invariant: the statement text produced by
`buildSQL` carries exactly one placeholder per accumulated argument. -/
theorem countQ_buildSQL {α : Type} (q : Query α) (hq : QInv q) :
    countQ (buildSQL q) = q.args.length := by
  obtain ⟨h1, h2, h3, h4, h5⟩ := hq
  rw [buildSQL, countQ_goJoin " " (by decide), partsOf]
  simp only [sumQ_append, sumQ_cons, sumQ_nil]
  have hsel : countQ ("SELECT " ++ (if q.distinct then "DISTINCT " else "")
      ++ goJoin ", " q.selects) = 0 := by
    rw [countQ_append, countQ_append, countQ_goJoin ", " (by decide), h2]
    split <;> decide
  have htab : sumQ (if q.table = "" then [] else ["FROM " ++ q.table]) = 0 := by
    split
    · rfl
    · simp only [sumQ_cons, sumQ_nil, countQ_append, h1]
      decide
  have hjoin : sumQ (if q.joins = [] then [] else [goJoin " " q.joins]) = sumQ q.joins := by
    split
    · rename_i h; rw [h]
    · simp only [sumQ_cons, sumQ_nil, countQ_goJoin " " (by decide)]
      omega
  have hwhere : sumQ (if q.wheres = [] then [] else ["WHERE " ++ goJoin " AND " q.wheres])
      = sumQ q.wheres := by
    split
    · rename_i h; rw [h]
    · simp only [sumQ_cons, sumQ_nil, countQ_append, countQ_goJoin " AND " (by decide)]
      have : countQ "WHERE " = 0 := by decide
      omega
  have hgroup : sumQ (if q.groupBy = [] then [] else ["GROUP BY " ++ goJoin ", " q.groupBy])
      = 0 := by
    split
    · rfl
    · simp only [sumQ_cons, sumQ_nil, countQ_append, countQ_goJoin ", " (by decide), h3]
      decide
  have hhaving : sumQ (if q.having = [] then [] else ["HAVING " ++ goJoin " AND " q.having])
      = sumQ q.having := by
    split
    · rename_i h; rw [h]
    · simp only [sumQ_cons, sumQ_nil, countQ_append, countQ_goJoin " AND " (by decide)]
      have : countQ "HAVING " = 0 := by decide
      omega
  have horder : sumQ (if q.orderBy = [] then [] else ["ORDER BY " ++ goJoin ", " q.orderBy])
      = 0 := by
    split
    · rfl
    · simp only [sumQ_cons, sumQ_nil, countQ_append, countQ_goJoin ", " (by decide), h4]
      decide
  have hlimit : sumQ (if q.limit > 0 then ["LIMIT " ++ intStr q.limit] else []) = 0 := by
    split
    · simp only [sumQ_cons, sumQ_nil, countQ_append, countQ_intStr]
      decide
    · rfl
  have hoffset : sumQ (if q.offset > 0 then ["OFFSET " ++ intStr q.offset] else []) = 0 := by
    split
    · simp only [sumQ_cons, sumQ_nil, countQ_append, countQ_intStr]
      decide
    · rfl
  omega

/-- Marker-free clause lists have zero placeholder mass. -/
theorem sumQ_eq_zero {l : List String} (h : ∀ s ∈ l, countQ s = 0) : sumQ l = 0 := by
  induction l with
  | nil => rfl
  | cons x xs ih =>
    rw [sumQ_cons, h x (by simp), ih (fun s hs => h s (by simp [hs]))]

/-- Every well-formed composition call preserves the builder invariant. -/
theorem qinv_applyOp {α : Type} (q : Query α) (op : QOp α) (hq : QInv q)
    (hop : wfOp op = true) : QInv (applyOp q op) := by
  obtain ⟨h1, h2, h3, h4, h5⟩ := hq
  cases op with
  | Table t =>
    simp only [wfOp, beq_iff_eq] at hop
    exact ⟨hop, h2, h3, h4, h5⟩
  | Select fs =>
    simp only [wfOp, List.all_eq_true, beq_iff_eq] at hop
    simp only [applyOp, Query.Select]
    split
    · exact ⟨h1, sumQ_eq_zero hop, h3, h4, h5⟩
    · exact ⟨h1, h2, h3, h4, h5⟩
  | Distinct => exact ⟨h1, h2, h3, h4, h5⟩
  | Where c a =>
    simp only [wfOp, beq_iff_eq] at hop
    refine ⟨h1, h2, h3, h4, ?_⟩
    simp only [applyOp, Query.Where, sumQ_append, sumQ_cons, sumQ_nil, List.length_append, hop]
    omega
  | WhereIn f vs =>
    simp only [wfOp, beq_iff_eq] at hop
    simp only [applyOp, Query.WhereIn]
    split
    · exact ⟨h1, h2, h3, h4, h5⟩
    · refine ⟨h1, h2, h3, h4, ?_⟩
      simp only [sumQ_append, sumQ_cons, sumQ_nil, countQ_append, List.length_append,
        mapConstQ, countQ_goJoin_replicate, hop]
      have e1 : countQ " IN (" = 0 := by decide
      have e2 : countQ ")" = 0 := by decide
      omega
  | WhereNotIn f vs =>
    simp only [wfOp, beq_iff_eq] at hop
    simp only [applyOp, Query.WhereNotIn]
    split
    · exact ⟨h1, h2, h3, h4, h5⟩
    · refine ⟨h1, h2, h3, h4, ?_⟩
      simp only [sumQ_append, sumQ_cons, sumQ_nil, countQ_append, List.length_append,
        mapConstQ, countQ_goJoin_replicate, hop]
      have e1 : countQ " NOT IN (" = 0 := by decide
      have e2 : countQ ")" = 0 := by decide
      omega
  | WhereBetween f s e =>
    simp only [wfOp, beq_iff_eq] at hop
    refine ⟨h1, h2, h3, h4, ?_⟩
    simp only [applyOp, Query.WhereBetween, sumQ_append, sumQ_cons, sumQ_nil, countQ_append,
      List.length_append, List.length_cons, List.length_nil, hop]
    have e1 : countQ " BETWEEN ? AND ?" = 2 := by decide
    omega
  | WhereLike f p =>
    simp only [wfOp, beq_iff_eq] at hop
    refine ⟨h1, h2, h3, h4, ?_⟩
    simp only [applyOp, Query.WhereLike, sumQ_append, sumQ_cons, sumQ_nil, countQ_append,
      List.length_append, List.length_cons, List.length_nil, hop]
    have e1 : countQ " LIKE ?" = 1 := by decide
    omega
  | WhereNull f =>
    simp only [wfOp, beq_iff_eq] at hop
    refine ⟨h1, h2, h3, h4, ?_⟩
    simp only [applyOp, Query.WhereNull, sumQ_append, sumQ_cons, sumQ_nil, countQ_append, hop]
    have e1 : countQ " IS NULL" = 0 := by decide
    omega
  | WhereNotNull f =>
    simp only [wfOp, beq_iff_eq] at hop
    refine ⟨h1, h2, h3, h4, ?_⟩
    simp only [applyOp, Query.WhereNotNull, sumQ_append, sumQ_cons, sumQ_nil, countQ_append, hop]
    have e1 : countQ " IS NOT NULL" = 0 := by decide
    omega
  | Join t c a =>
    simp only [wfOp, Bool.and_eq_true, beq_iff_eq] at hop
    refine ⟨h1, h2, h3, h4, ?_⟩
    simp only [applyOp, Query.Join, sumQ_append, sumQ_cons, sumQ_nil, countQ_append,
      List.length_append, hop.1, hop.2]
    have e1 : countQ "JOIN " = 0 := by decide
    have e2 : countQ " ON " = 0 := by decide
    omega
  | LeftJoin t c a =>
    simp only [wfOp, Bool.and_eq_true, beq_iff_eq] at hop
    refine ⟨h1, h2, h3, h4, ?_⟩
    simp only [applyOp, Query.LeftJoin, sumQ_append, sumQ_cons, sumQ_nil, countQ_append,
      List.length_append, hop.1, hop.2]
    have e1 : countQ "LEFT JOIN " = 0 := by decide
    have e2 : countQ " ON " = 0 := by decide
    omega
  | RightJoin t c a =>
    simp only [wfOp, Bool.and_eq_true, beq_iff_eq] at hop
    refine ⟨h1, h2, h3, h4, ?_⟩
    simp only [applyOp, Query.RightJoin, sumQ_append, sumQ_cons, sumQ_nil, countQ_append,
      List.length_append, hop.1, hop.2]
    have e1 : countQ "RIGHT JOIN " = 0 := by decide
    have e2 : countQ " ON " = 0 := by decide
    omega
  | GroupBy fs =>
    simp only [wfOp, List.all_eq_true, beq_iff_eq] at hop
    refine ⟨h1, h2, ?_, h4, h5⟩
    simp only [applyOp, Query.GroupBy, sumQ_append, h3, sumQ_eq_zero hop]
  | Having c a =>
    simp only [wfOp, beq_iff_eq] at hop
    refine ⟨h1, h2, h3, h4, ?_⟩
    simp only [applyOp, Query.Having, sumQ_append, sumQ_cons, sumQ_nil, List.length_append, hop]
    omega
  | OrderBy f d =>
    simp only [wfOp, beq_iff_eq] at hop
    refine ⟨h1, h2, h3, ?_, h5⟩
    simp only [applyOp, Query.OrderBy, sumQ_append, sumQ_cons, sumQ_nil, h4, hop]
  | OrderByAsc f =>
    simp only [wfOp, beq_iff_eq] at hop
    refine ⟨h1, h2, h3, ?_, h5⟩
    simp only [applyOp, Query.OrderByAsc, sumQ_append, sumQ_cons, sumQ_nil, h4, countQ_append,
      hop]
    decide
  | OrderByDesc f =>
    simp only [wfOp, beq_iff_eq] at hop
    refine ⟨h1, h2, h3, ?_, h5⟩
    simp only [applyOp, Query.OrderByDesc, sumQ_append, sumQ_cons, sumQ_nil, h4, countQ_append,
      hop]
    decide
  | Limit l => exact ⟨h1, h2, h3, h4, h5⟩
  | Offset o => exact ⟨h1, h2, h3, h4, h5⟩

/-- The invariant holds after any well-formed composition sequence. -/
theorem qinv_applyOps {α : Type} (ops : List (QOp α)) (h : ∀ op ∈ ops, wfOp op = true) :
    QInv (applyOps ops) := by
  rw [applyOps]
  have : ∀ (l : List (QOp α)) (q : Query α), QInv q → (∀ op ∈ l, wfOp op = true) →
      QInv (l.foldl applyOp q) := by
    intro l
    induction l with
    | nil => intro q hq _; exact hq
    | cons op rest ih =>
      intro q hq hl
      rw [List.foldl_cons]
      exact ih _ (qinv_applyOp q op hq (hl op (by simp))) (fun o ho => hl o (by simp [ho]))
  exact this ops newQuery qinv_newQuery h

/-- Every composition call appends its own argument values at the end of
the accumulated flat list (call-order accumulation). -/
theorem args_applyOp {α : Type} (q : Query α) (op : QOp α) :
    (applyOp q op).args = q.args ++ argsOf op := by
  cases op with
  | Select fs =>
    simp only [applyOp, Query.Select, argsOf]
    split <;> simp
  | WhereIn f vs =>
    simp only [applyOp, Query.WhereIn, argsOf]
    split <;> simp_all
  | WhereNotIn f vs =>
    simp only [applyOp, Query.WhereNotIn, argsOf]
    split <;> simp_all
  | _ =>
    simp [applyOp, Query.Table, Query.Distinct, Query.Where, Query.WhereBetween,
      Query.WhereLike, Query.WhereNull, Query.WhereNotNull, Query.Join, Query.LeftJoin,
      Query.RightJoin, Query.GroupBy, Query.Having, Query.OrderBy, Query.OrderByAsc,
      Query.OrderByDesc, Query.Limit, Query.Offset, argsOf]

/-- The instrumented fold follows the code's fold. -/
theorem gq_foldl {α : Type} : ∀ (ops : List (QOp α)) (g : GQuery α),
    (ops.foldl applyG g).q = ops.foldl applyOp g.q := by
  intro ops
  induction ops with
  | nil => intro g; rfl
  | cons op rest ih =>
    intro g
    rw [List.foldl_cons, List.foldl_cons, ih]
    rfl

/-- Level 0 means no predicate or having arguments yet. -/
theorem curLevel_zero {α : Type} {g : GQuery α} (h : curLevel g = 0) :
    g.wArgs = [] ∧ g.hArgs = [] := by
  unfold curLevel at h
  split at h
  · split at h
    · rename_i hh hw
      exact ⟨List.length_eq_zero.mp hw, List.length_eq_zero.mp hh⟩
    · omega
  · omega

/-- Level at most 1 means no having arguments yet. -/
theorem curLevel_le_one {α : Type} {g : GQuery α} (h : curLevel g ≤ 1) : g.hArgs = [] := by
  unfold curLevel at h
  split at h
  · rename_i hh
    exact List.length_eq_zero.mp hh
  · omega

/-- Ranks taken by the dispatcher are at most 2. -/
theorem rankOf_le_two {α : Type} (op : QOp α) : rankOf op ≤ 2 := by
  cases op <;> simp [rankOf]

/-- Central order lemma: as long as the argument-carrying calls arrive in
emission-rank order (never a lower-ranked clause after a higher-ranked
one has collected arguments), the flat call-order argument list stays
equal to the emission-order concatenation. -/
theorem ghost_args_emission {α : Type} : ∀ (ops : List (QOp α)) (g : GQuery α),
    g.q.args = emissionArgs g →
    nondecreasing (curLevel g :: ranksFrom ops) = true →
    (ops.foldl applyG g).q.args = emissionArgs (ops.foldl applyG g) := by
  intro ops
  induction ops with
  | nil => intro g h _; exact h
  | cons op rest ih =>
    intro g hinv hsorted
    rw [List.foldl_cons]
    by_cases ha : (argsOf op).length = 0
    · have hao : argsOf op = [] := List.length_eq_zero.mp ha
      have hrf : ranksFrom (op :: rest) = ranksFrom rest := by
        simp [ranksFrom, List.filterMap_cons, ha]
      rw [hrf] at hsorted
      apply ih
      · show (applyG g op).q.args = emissionArgs (applyG g op)
        simp [applyG, emissionArgs, args_applyOp, hao, hinv]
      · have hcl : curLevel (applyG g op) = curLevel g := by
          simp only [curLevel, applyG, hao, ite_self, List.append_nil]
        rw [hcl]
        exact hsorted
    · have hrf : ranksFrom (op :: rest) = rankOf op :: ranksFrom rest := by
        simp [ranksFrom, List.filterMap_cons, ha]
      rw [hrf] at hsorted
      have hparts : curLevel g ≤ rankOf op ∧
          nondecreasing (rankOf op :: ranksFrom rest) = true := by
        simpa [nondecreasing, Bool.and_eq_true, decide_eq_true_eq] using hsorted
      have h012 := rankOf_le_two op
      by_cases hr0 : rankOf op = 0
      · have hcl0 : curLevel g = 0 := by
          have := hparts.1
          omega
        obtain ⟨hw, hh⟩ := curLevel_zero hcl0
        apply ih
        · show (applyG g op).q.args = emissionArgs (applyG g op)
          simp [applyG, emissionArgs, args_applyOp, hr0, hw, hh, hinv, List.append_assoc]
        · have : curLevel (applyG g op) = rankOf op := by
            simp [curLevel, applyG, hr0, hw, hh]
          rw [this]
          exact hparts.2
      · by_cases hr1 : rankOf op = 1
        · have hh : g.hArgs = [] := by
            apply curLevel_le_one
            have := hparts.1
            omega
          apply ih
          · show (applyG g op).q.args = emissionArgs (applyG g op)
            simp [applyG, emissionArgs, args_applyOp, hr1, hh, hinv, List.append_assoc]
          · have : curLevel (applyG g op) = rankOf op := by
              have hne : argsOf op ≠ [] := fun hc => ha (by simp [hc])
              simp [curLevel, applyG, hr1, hh, List.length_append, hne]
            rw [this]
            exact hparts.2
        · have hr2 : rankOf op = 2 := by omega
          apply ih
          · show (applyG g op).q.args = emissionArgs (applyG g op)
            simp [applyG, emissionArgs, args_applyOp, hr2, hinv, List.append_assoc]
          · have : curLevel (applyG g op) = rankOf op := by
              have hne : argsOf op ≠ [] := fun hc => ha (by simp [hc])
              simp [curLevel, applyG, hr2, List.length_append, hne]
            rw [this]
            exact hparts.2

/-! ### Substring lemmas for order-by inversion -/

/-- String equality follows from equality of underlying data. -/
theorem strEq_of_data {a b : String} (h : a.data = b.data) : a = b := by
  cases a
  cases b
  cases h
  rfl

/-- A space-free pattern that is a prefix across a space boundary is a
prefix of the part before the boundary. -/
theorem hasPre_boundary : ∀ (pat f rest : List Char), ' ' ∉ pat →
    hasPre pat (f ++ ' ' :: rest) = true → hasPre pat f = true := by
  intro pat
  induction pat with
  | nil => intro f rest _ _; rfl
  | cons o os ih =>
    intro f rest hsp h
    cases f with
    | nil =>
      exfalso
      rw [List.nil_append, hasPre, Bool.and_eq_true, beq_iff_eq] at h
      exact hsp (h.1 ▸ List.mem_cons_self o os)
    | cons c fs =>
      rw [List.cons_append, hasPre, Bool.and_eq_true] at h
      rw [hasPre, Bool.and_eq_true]
      exact ⟨h.1, ih fs rest (fun hm => hsp (List.mem_cons_of_mem o hm)) h.2⟩

/-- A prefix occurrence is an occurrence. -/
theorem occurs_of_hasPre {pat l : List Char} (h : hasPre pat l = true) :
    occurs pat l = true := by
  cases l with
  | nil => rw [occurs]; exact h
  | cons c t =>
    rw [occurs, Bool.or_eq_true]
    exact Or.inl h

/-- Occurrences survive prepending. -/
theorem occurs_append_right (pat : List Char) : ∀ (s t : List Char),
    occurs pat t = true → occurs pat (s ++ t) = true := by
  intro s
  induction s with
  | nil => intro t h; exact h
  | cons c cs ih =>
    intro t h
    rw [List.cons_append, occurs, Bool.or_eq_true]
    exact Or.inr (ih t h)

/-- A space-free pattern cannot start inside a clean part followed by a
space boundary. -/
theorem hasPre_false_of_clean (pat : List Char) (hsp : ' ' ∉ pat) (c : Char)
    (fs rest : List Char) (h : occurs pat (c :: fs) = false) :
    hasPre pat (c :: (fs ++ ' ' :: rest)) = false := by
  cases hv : hasPre pat (c :: (fs ++ ' ' :: rest)) with
  | false => rfl
  | true =>
    exfalso
    have hb : hasPre pat (c :: fs) = true := by
      have := hasPre_boundary pat (c :: fs) rest hsp (by rw [List.cons_append]; exact hv)
      exact this
    rw [occurs_of_hasPre hb] at h
    cases h

/-- Occurrence of a space-free pattern across a space boundary, when the
part before the boundary is clean, is the occurrence after the
boundary. -/
theorem occurs_space_split (pat : List Char) (hsp : ' ' ∉ pat) :
    ∀ (f rest : List Char), occurs pat f = false →
    occurs pat (f ++ ' ' :: rest) = occurs pat (' ' :: rest) := by
  intro f
  induction f with
  | nil => intro rest _; rfl
  | cons c fs ih =>
    intro rest hocc
    have hocc' := hocc
    rw [occurs, Bool.or_eq_false_iff] at hocc'
    rw [List.cons_append, occurs, hasPre_false_of_clean pat hsp c fs rest hocc,
      Bool.false_or]
    exact ih rest hocc'.2

/-- Replacing the first occurrence of a space-free pattern leaves a clean
part before a space boundary untouched. -/
theorem replF_space_split (old new : List Char) (hsp : ' ' ∉ old) :
    ∀ (f rest : List Char), occurs old f = false →
    replF old new (f ++ ' ' :: rest) = f ++ ' ' :: replF old new rest := by
  intro f
  induction f with
  | nil =>
    intro rest hocc
    rw [occurs] at hocc
    rw [List.nil_append, List.nil_append, replF]
    have hps : hasPre old (' ' :: rest) = false := by
      cases old with
      | nil => rw [hasPre] at hocc; cases hocc
      | cons o os =>
        rw [hasPre]
        have : (o == ' ') = false := by
          rw [beq_eq_false_iff_ne]
          exact fun he => hsp (he ▸ List.mem_cons_self o os)
        rw [this, Bool.false_and]
    rw [hps]
    simp
  | cons c fs ih =>
    intro rest hocc
    have hocc' := hocc
    rw [occurs, Bool.or_eq_false_iff] at hocc'
    rw [List.cons_append, replF, hasPre_false_of_clean old hsp c fs rest hocc]
    simp only [Bool.false_eq_true, if_false]
    rw [ih rest hocc'.2, List.cons_append]

/-- Inversion of an entry `field ++ " ASC"` with a clean field name. -/
theorem invert_asc (f : String) (h1 : goContains f "ASC" = false) :
    invertOrder (f ++ " ASC") = f ++ " DESC" := by
  obtain ⟨l⟩ := f
  have h1' : occurs "ASC".data l = false := h1
  have hc : goContains (⟨l⟩ ++ " ASC") "ASC" = true := by
    show occurs "ASC".data (l ++ " ASC".data) = true
    exact occurs_append_right _ l _ (by decide)
  rw [invertOrder, if_pos hc]
  refine strEq_of_data ?_
  show replF "ASC".data "DESC".data (l ++ ' ' :: "ASC".data) = l ++ ' ' :: "DESC".data
  rw [replF_space_split "ASC".data "DESC".data (by decide) l "ASC".data h1']
  rfl

/-- Inversion of an entry `field ++ " DESC"` with a clean field name. -/
theorem invert_desc (f : String) (h1 : goContains f "ASC" = false)
    (h2 : goContains f "DESC" = false) :
    invertOrder (f ++ " DESC") = f ++ " ASC" := by
  obtain ⟨l⟩ := f
  have h1' : occurs "ASC".data l = false := h1
  have h2' : occurs "DESC".data l = false := h2
  have hnoasc : goContains (⟨l⟩ ++ " DESC") "ASC" = false := by
    show occurs "ASC".data (l ++ ' ' :: "DESC".data) = false
    rw [occurs_space_split "ASC".data (by decide) l "DESC".data h1']
    decide
  have hdesc : goContains (⟨l⟩ ++ " DESC") "DESC" = true := by
    show occurs "DESC".data (l ++ " DESC".data) = true
    exact occurs_append_right _ l _ (by decide)
  rw [invertOrder, if_neg (by rw [hnoasc]; exact Bool.false_ne_true), if_pos hdesc]
  refine strEq_of_data ?_
  show replF "DESC".data "ASC".data (l ++ ' ' :: "DESC".data) = l ++ ' ' :: "ASC".data
  rw [replF_space_split "DESC".data "ASC".data (by decide) l "DESC".data h2']
  rfl

/-- Inversion of an entry with no direction keyword anywhere appends
`" DESC"`. -/
theorem invert_plain (f : String) (h1 : goContains f "ASC" = false)
    (h2 : goContains f "DESC" = false) :
    invertOrder f = f ++ " DESC" := by
  rw [invertOrder, if_neg (by rw [h1]; exact Bool.false_ne_true),
    if_neg (by rw [h2]; exact Bool.false_ne_true)]

/-! ### Claim theorems -/

/-- C1 (amended): for every well-formed builder composition sequence the
number of `?` placeholders in the `buildSQL` text equals the length of
the accumulated positional-argument list, the ghost instrumentation
follows the real builder, and the flat argument list matches the
emission-order (placeholder-order) concatenation whenever the
argument-carrying calls are themselves made in clause-emission order
(joins before predicates before having).  The original claim's
"regardless of the order in which the composition methods were invoked —
including a Join carrying arguments after a Where carrying arguments" is
false on the code; `c1_counterexample` exhibits the mismatch. -/
theorem c1_placeholder_alignment {α : Type} (ops : List (QOp α))
    (hwf : ∀ op ∈ ops, wfOp op = true) :
    countQ (buildSQL (applyOps ops)) = (applyOps ops).args.length ∧
    (applyGOps ops).q = applyOps ops ∧
    (nondecreasing (0 :: ranksFrom ops) = true →
      (applyOps ops).args = emissionArgs (applyGOps ops)) := by
  have hq : (applyGOps ops).q = applyOps ops := by
    rw [applyGOps, gq_foldl]
    rfl
  refine ⟨countQ_buildSQL _ (qinv_applyOps ops hwf), hq, ?_⟩
  intro hsort
  rw [← hq]
  exact ghost_args_emission ops gInit rfl hsort

/-- C1 counterexample: attaching a Join that carries an argument after a
Where that carries one renders the join's placeholder first
(`… JOIN t2 ON b = ? WHERE a = ?`) while the argument list stays in call
order `[1, 2]`; consuming placeholders left-to-right would need the
emission order `[2, 1]`, so the claimed order match fails (the
placeholder count still matches). -/
theorem c1_counterexample :
    buildSQL (applyOps opsJoinAfterWhere) =
      "SELECT * FROM t1 JOIN t2 ON b = ? WHERE a = ?" ∧
    (applyOps opsJoinAfterWhere).args = [1, 2] ∧
    emissionArgs (applyGOps opsJoinAfterWhere) = [2, 1] ∧
    (applyOps opsJoinAfterWhere).args ≠ emissionArgs (applyGOps opsJoinAfterWhere) := by
  refine ⟨rfl, rfl, rfl, ?_⟩
  decide

/-- C1 witness: a concrete well-formed sequence with the join attached
before the predicate; count and order both line up. -/
theorem c1_witness :
    (∀ op ∈ opsEmissionOrdered, wfOp op = true) ∧
    nondecreasing (0 :: ranksFrom opsEmissionOrdered) = true ∧
    countQ (buildSQL (applyOps opsEmissionOrdered)) =
      (applyOps opsEmissionOrdered).args.length ∧
    (applyOps opsEmissionOrdered).args = emissionArgs (applyGOps opsEmissionOrdered) := by
  have hwf : ∀ op ∈ opsEmissionOrdered, wfOp op = true := by decide
  have hsort : nondecreasing (0 :: ranksFrom opsEmissionOrdered) = true := by decide
  exact ⟨hwf, hsort, (c1_placeholder_alignment opsEmissionOrdered hwf).1,
    (c1_placeholder_alignment opsEmissionOrdered hwf).2.2 hsort⟩

/-- C2: `Count` executes `buildSQL` of the builder with projections
swapped to `COUNT(*)`, and the builder returned is identical to the
input — in particular the projections are restored — for every transport
outcome, errors included; the error value is passed through unchanged. -/
theorem c2_count_restores_projections {α : Type} (q : Query α) (ε : ExecResult) :
    (q.Count ε).1 = q ∧
    (q.Count ε).1.selects = q.selects ∧
    (q.Count ε).2.1 = buildSQL { q with selects := ["COUNT(*)"] } ∧
    (q.Count ε).2.2 = scanRowErr ε :=
  ⟨rfl, rfl, rfl, rfl⟩

/-- C3 (amended): `Last` restores the original `orderBy` on every exit
path (the outcome parameter ranges over failures too), forces
`limit = 1`, executes with the default `"id DESC"` ordering when none was
set, and otherwise executes with each entry inverted — but the inversion
replaces the FIRST substring occurrence of `ASC` (checking `ASC` before
`DESC`), so the claimed direction inversion holds only for entries whose
field part contains neither `ASC` nor `DESC` as a substring
(`cleanField`); `c3_counterexample` shows the divergence on a reachable
state, and the hard-coded default is the literal column `id`, not a
schema-derived primary key. -/
theorem c3_last_inverts_and_restores {α : Type} (q : Query α) (ε : ExecResult) :
    (q.Last ε).1.orderBy = q.orderBy ∧
    (q.Last ε).1.limit = 1 ∧
    (q.Last ε).2.1 = buildSQL { q with orderBy := lastOrderBy q.orderBy, limit := 1 } ∧
    (q.Last ε).2.2 = scanRowErr ε ∧
    (q.orderBy = [] → lastOrderBy q.orderBy = ["id DESC"]) ∧
    (∀ f, cleanField f → invertOrder (f ++ " ASC") = f ++ " DESC") ∧
    (∀ f, cleanField f → invertOrder (f ++ " DESC") = f ++ " ASC") ∧
    (∀ f, cleanField f → invertOrder f = f ++ " DESC") := by
  refine ⟨rfl, rfl, rfl, rfl, ?_, ?_, ?_, ?_⟩
  · intro h
    rw [lastOrderBy, if_pos h]
  · exact fun f hf => invert_asc f hf.1
  · exact fun f hf => invert_desc f hf.1 hf.2
  · exact fun f hf => invert_plain f hf.1 hf.2

/-- C3 counterexample: the reachable builder state
`OrderByDesc "CASC"` holds the entry `"CASC DESC"`; the claim's
inversion of DESC to ASC would execute with `"CASC ASC"`, but the code's
first-substring replacement finds the `ASC` inside the field name and
executes with `"CDESC DESC"`. -/
theorem c3_counterexample :
    (((newQuery (α := Nat)).Table "t").OrderByDesc "CASC").orderBy = ["CASC DESC"] ∧
    ((((newQuery (α := Nat)).Table "t").OrderByDesc "CASC").Last (.success 1)).2.1 =
      "SELECT * FROM t ORDER BY CDESC DESC LIMIT 1" ∧
    lastOrderBy ["CASC DESC"] = ["CDESC DESC"] ∧
    (["CDESC DESC"] : List String) ≠ ["CASC ASC"] := by
  refine ⟨rfl, rfl, rfl, ?_⟩
  decide

/-- C3 witness: concrete instantiation — no prior order-by yields the
`id DESC` default, and the inversion clauses at clean field names. -/
theorem c3_witness :
    (((newQuery (α := Nat)).Table "t").Last (.failure "boom")).1.orderBy = [] ∧
    lastOrderBy (((newQuery (α := Nat)).Table "t").orderBy) = ["id DESC"] ∧
    invertOrder "name ASC" = "name DESC" ∧
    invertOrder "price DESC" = "price ASC" ∧
    invertOrder "name" = "name DESC" := by
  have t := c3_last_inverts_and_restores ((newQuery (α := Nat)).Table "t") (.failure "boom")
  exact ⟨t.1, t.2.2.2.2.1 rfl, t.2.2.2.2.2.1 "name" (by decide),
    t.2.2.2.2.2.2.1 "price" (by decide), t.2.2.2.2.2.2.2 "name" (by decide)⟩

/-- C4 (amended): when exactly one of the two sub-expressions is
non-empty, `Over` emits only that sub-clause inside `OVER (…)`, and a
window that never called `Over` omits the OVER clause from `Build`; but
calling `Over` with both sub-expressions empty stores the non-empty
string `"OVER ()"`, which `Build` then emits — the claimed omission
fails, see `c4_counterexample`. -/
theorem c4_over_subclauses (w : Window) (p o : String) :
    (p ≠ "" → (w.Over p "").over = "OVER (PARTITION BY " ++ p ++ ")") ∧
    (o ≠ "" → (w.Over "" o).over = "OVER (ORDER BY " ++ o ++ ")") ∧
    (w.Over "" "").over = "OVER ()" ∧
    (w.function ≠ "" → w.over = "" → w.aliasName = "" → w.Build = w.function) ∧
    (w.function ≠ "" → w.aliasName = "" →
      ((w.Over "" "").Build = w.function ++ " OVER ()")) := by
  refine ⟨?_, ?_, rfl, ?_, ?_⟩
  · intro hp
    rw [Window.Over]
    simp only [hp, if_true, ne_eq, not_true_eq_false, if_false, List.append_nil]
    rfl
  · intro ho
    rw [Window.Over]
    simp only [ho, if_true, ne_eq, not_true_eq_false, if_false, List.nil_append]
    rfl
  · intro hfn hov hal
    rw [Window.Build, if_neg hfn, hov, hal]
    simp
  · intro hfn hal
    obtain ⟨fn, ov, al⟩ := w
    have hal' : al = "" := hal
    subst hal'
    show (if fn = "" then ""
      else (fn ++ (if ("OVER ()" : String) ≠ "" then " " ++ "OVER ()" else ""))
        ++ (if ("" : String) ≠ "" then " AS " ++ "" else "")) = fn ++ " OVER ()"
    rw [if_neg hfn, if_pos (show ("OVER ()" : String) ≠ "" by decide),
      if_neg (show ¬(("" : String) ≠ "") by decide)]
    refine strEq_of_data ?_
    simp [String.data_append, List.append_assoc]

/-- C4 counterexample: `Over("", "")` followed by `Build` emits a bare
`OVER ()` instead of omitting the OVER clause entirely. -/
theorem c4_counterexample :
    ((newWindow.RowNumber).Over "" "").Build = "ROW_NUMBER() OVER ()" ∧
    (newWindow.RowNumber).Build = "ROW_NUMBER()" ∧
    ("ROW_NUMBER() OVER ()" : String) ≠ "ROW_NUMBER()" := by
  refine ⟨rfl, rfl, ?_⟩
  decide

/-- C4 witness: the single-sided sub-clauses at concrete arguments. -/
theorem c4_witness :
    ((newWindow.Rank).Over "dept" "").over = "OVER (PARTITION BY dept)" ∧
    ((newWindow.Rank).Over "" "score").over = "OVER (ORDER BY score)" :=
  ⟨(c4_over_subclauses (newWindow.Rank) "dept" "score").1 (by decide),
   (c4_over_subclauses (newWindow.Rank) "dept" "score").2.1 (by decide)⟩

/-- C5 (amended): `Exists` permanently overwrites the builder's
projections with `["1"]` and forces `limit = 1` — the original projection
list is NOT restored after the call (`c5_counterexample`) — and it
returns true exactly when the single-row scan succeeds: false on a
transport failure, false when zero rows come back, true when a row is
scanned (with the forced `LIMIT 1` that is the exactly-one-row case). -/
theorem c5_exists_behavior {α : Type} (q : Query α) (ε : ExecResult) :
    (q.Exists ε).1 = { q with selects := ["1"], limit := 1 } ∧
    (q.Exists ε).2.1 = buildSQL { q with selects := ["1"], limit := 1 } ∧
    ((q.Exists ε).2.2.1 = true ↔ scanRowErr ε = none) ∧
    (∀ m, (q.Exists (.failure m)).2.2.1 = false) ∧
    (q.Exists (.success 0)).2.2.1 = false ∧
    (∀ n, (q.Exists (.success (n + 1))).2.2.1 = true) := by
  refine ⟨rfl, rfl, ?_, fun m => rfl, rfl, fun n => rfl⟩
  exact Option.isNone_iff_eq_none

/-- C5 counterexample: after `Exists` the builder's projection list is
`["1"]`, not the original `["*"]` — the claimed restoration does not
happen. -/
theorem c5_counterexample :
    (((newQuery (α := Nat)).Table "t").Exists (.success 1)).1.selects = ["1"] ∧
    ((newQuery (α := Nat)).Table "t").selects = ["*"] ∧
    (["1"] : List String) ≠ ["*"] := by
  refine ⟨rfl, rfl, ?_⟩
  decide

/-- C6: schema derivation is idempotent and cached by table name — a
successful derivation caches the descriptor, a second derivation of the
same record returns the identical mapper state and descriptor, any record
resolving to the same table name (in particular one with changed field
metadata) gets the cached descriptor unchanged, and the create-table text
of repeated derivations is stable. -/
theorem c6_schema_cache_idempotent (m : Mapper) (model : StructDesc) (m₁ : Mapper)
    (info : TableInfo) (h : ParseStruct m model = .ok m₁ info) :
    ParseStruct m₁ model = .ok m₁ info ∧
    (∀ model₂, getTableName model₂ = getTableName model →
      ParseStruct m₁ model₂ = .ok m₁ info) ∧
    (∀ m₂ info₂, ParseStruct m₁ model = .ok m₂ info₂ →
      BuildCreateTableSQL info₂ = BuildCreateTableSQL info) := by
  rw [ParseStruct] at h
  cases hn : getTableName model with
  | error msg =>
    simp only [hn] at h
    exact ParseOutcome.noConfusion h
  | ok tableName =>
    simp only [hn] at h
    have hcached : lookupReg m₁.registry tableName = some info := by
      cases hl : lookupReg m.registry tableName with
      | some i =>
        simp only [hl] at h
        injection h with h1 h2
        rw [← h1, hl, h2]
      | none =>
        simp only [hl] at h
        injection h with h1 h2
        rw [← h1, ← h2]
        simp [lookupReg]
    have hself : ParseStruct m₁ model = .ok m₁ info := by
      simp only [ParseStruct, hn, hcached]
    refine ⟨hself, ?_, ?_⟩
    · intro model₂ heq
      simp only [ParseStruct, heq, hn, hcached]
    · intro m₂ info₂ h₂
      rw [hself] at h₂
      injection h₂ with h1 h2
      rw [h2]

/-- C6 witness: deriving the two-field `User` record caches the
descriptor under `"user"`; re-deriving returns the identical cached
instance, and so does deriving a record with changed metadata that
resolves to the same table name. -/
theorem c6_witness :
    ParseStruct newMapper userModel = .ok userMapper1 userTableInfo ∧
    ParseStruct userMapper1 userModel = .ok userMapper1 userTableInfo ∧
    ParseStruct userMapper1 userModelChanged = .ok userMapper1 userTableInfo ∧
    getTableName userModelChanged = getTableName userModel := by
  have h : ParseStruct newMapper userModel = .ok userMapper1 userTableInfo := by decide
  have t := c6_schema_cache_idempotent newMapper userModel userMapper1 userTableInfo h
  exact ⟨h, t.1, t.2.1 userModelChanged (by rfl), by rfl⟩

/-- C7: `Update` fails with the validation error exactly on an empty
field-value map and otherwise executes; the rendered statement and
arguments depend only on the builder's table, predicates and accumulated
arguments (joins, grouping, having, ordering, limit and offset are
ignored); and in the executed argument list every SET value precedes
every predicate argument. -/
theorem c7_update_validation_and_arg_order {α : Type} (q : Query α) (p : String × α)
    (ps : List (String × α)) :
    q.Update [] = .error "no data to update" ∧
    (∀ data : List (String × α), q.Update data =
      ({ (newQuery : Query α) with
          table := q.table, wheres := q.wheres, args := q.args }).Update data) ∧
    (∃ sql, q.Update (p :: ps) = .ok (sql, (p :: ps).map (fun x => x.2) ++ q.args)) :=
  ⟨rfl, fun _ => rfl, ⟨_, rfl⟩⟩

/-- C8: every aggregate-builder call appends exactly one projection
string, whose expression and alias are exactly the section 4.2 table's
templates joined by the code's `" as "`; in particular the quantile alias
renders the level with six decimal places (`quantile(0.95, "score")`
aliases as `quantile_0.950000_score`) and `count("*")` emits `COUNT(*)`
with alias exactly `count`. -/
theorem c8_aggregate_alias_table (a : Aggregate) (op : AggOp) :
    (applyAggOp a op).funcs = a.funcs ++ [aggExpr op ++ " as " ++ aggAlias op] ∧
    aggAlias (.Quantile level095 "score") = "quantile_0.950000_score" ∧
    aggExpr (.Quantile level095 "score") = "quantile(0.950000)(score)" ∧
    (applyAggOp newAggregate (.Count "*")).funcs = ["COUNT(*) as count"] ∧
    aggAlias (.Count "*") = "count" := by
  have hstr : ∀ (x y : String), x.data = y.data → a.funcs ++ [x] = a.funcs ++ [y] :=
    fun x y h => by rw [strEq_of_data h]
  refine ⟨?_, rfl, rfl, rfl, rfl⟩
  cases op
  case Count f =>
    by_cases hf : f = "*"
    · subst hf
      rfl
    · simp only [applyAggOp, aggExpr, aggAlias, if_neg hf]
      refine hstr _ _ ?_
      simp only [aggExpr, aggAlias, String.data_append, List.append_assoc]
      rfl
  all_goals
    refine hstr _ _ ?_
    simp only [aggExpr, aggAlias, String.data_append, List.append_assoc]
    rfl

/-- C9: when `SetFieldValue`'s conversion switch has no case for the
(destination kind, source runtime type) combination, the call leaves the
struct unmodified and returns nil — and on a present field the operation
never returns an error value for any source value (coercion failures are
silent). -/
theorem c9_unrecognized_coercion_noop (std : GoStd) (s : GoStruct) (name : String)
    (ft : GoType) (old : GoValue) (value : GoValue)
    (hf : findField s name = some (ft, old))
    (hr : recognized ft (dynType value) = false) :
    SetFieldValue std s name value = .ok s ∧
    (∀ v₂ msg, SetFieldValue std s name v₂ ≠ .errored msg) := by
  constructor
  · have hne : ¬(ft = dynType value) := by
      intro h
      simp [recognized, h] at hr
    simp only [SetFieldValue, hf]
    rw [if_neg hne]
    cases ft <;> cases value <;> simp_all [recognized, dynType]
  · intro v₂ msg
    simp only [SetFieldValue, hf]
    split
    · simp
    · repeat' split
      all_goals simp [trySetInt, trySetUint]
      all_goals split <;> simp

/-- C9 witness: writing a `float64` source into a declared `bool` field
is an unlisted combination; the struct comes back unchanged with a nil
return. -/
theorem c9_witness :
    findField boolStruct "Flag" = some (GoType.tBool, GoValue.vBool false) ∧
    recognized GoType.tBool (dynType (GoValue.vFloat64 0)) = false ∧
    SetFieldValue stdStub boolStruct "Flag" (GoValue.vFloat64 0) = .ok boolStruct :=
  ⟨rfl, rfl,
    (c9_unrecognized_coercion_noop stdStub boolStruct "Flag" GoType.tBool
      (GoValue.vBool false) (GoValue.vFloat64 0) rfl rfl).1⟩

/-- C10: on a record type with zero fields and no `TableName` method,
table-name resolution reads the metadata of field 0 unconditionally, so
schema derivation panics with the reflect index-out-of-range fault
instead of returning an error value. -/
theorem c10_zero_field_panic :
    getTableName emptyModel = .error "reflect: Field index out of range" ∧
    ParseStruct newMapper emptyModel = .panicked "reflect: Field index out of range" :=
  ⟨rfl, rfl⟩
